import Mathlib

/-!
# ton-miniapp: the prediction-market mini app (`app.js`)

A shallow embedding of `app.js`.  The script is glue around the ECMAScript
runtime (Number arithmetic, `parseInt`, `toFixed`, `BigInt`), the wallet
widget, the indexer and the DOM, so the embedding has three layers:

* the ECMAScript Number operations the script calls, over exact binary
  floating point values `m * 2^e` with round-to-nearest-even;
* the page: the `connected` flag, the DOM elements and root style the
  script touches, and the calls it makes to the outside (`fetch`,
  `sendTransaction`, `console.error`), recorded in order;
* the functions of `app.js`, one definition each, under the source's names.
-/

namespace TonMiniapp

/-! ## ECMAScript Number values -/

/-- A Number value: `fin neg m e` is the finite value `(-1)^neg * m * 2^e`,
`inf neg` is `+Infinity` or `-Infinity`, `nan` is `NaN`.  The mantissa is not
kept normalised; two `fin` values are compared by the value they denote. -/
inductive JSNum where
  | fin (neg : Bool) (m : Nat) (e : Int)
  | inf (neg : Bool)
  | nan
deriving DecidableEq, Repr

/-- Errors the runtime throws in the parts of the script modelled here. -/
inductive JSError where
  | rangeError
  | typeError
  | syntaxError
  | network
  | failedToFetchContractState
  | walletRejected
deriving DecidableEq, Repr

deriving instance DecidableEq for Except

/-- Division of `n` by `d` rounded to the nearest integer, ties to even. -/
def rneDiv (n d : Nat) : Nat :=
  let q := n / d
  let r := n % d
  if 2 * r < d then q
  else if d < 2 * r then q + 1
  else if q % 2 = 0 then q else q + 1

/-- The loop of `ilog2`: halve until below two, at most `fuel` times. -/
def ilog2Loop : Nat → Nat → Nat
  | 0, _ => 0
  | fuel + 1, n => if n < 2 then 0 else ilog2Loop fuel (n / 2) + 1

/-- The position of the leading binary digit of `n`: `floor (log2 n)`, and
`0` for `n = 0`. -/
def ilog2 (n : Nat) : Nat := ilog2Loop n n

/-- Whether `2^k ≤ n / d`, for an integer `k` of either sign. -/
def pow2Le (k : Int) (n d : Nat) : Bool :=
  if 0 ≤ k then decide (d * 2 ^ k.toNat ≤ n) else decide (d ≤ n * 2 ^ (-k).toNat)

/-- The integer `k` with `2^k ≤ n / d < 2^(k+1)`, for positive `n` and `d`. -/
def floorLog2 (n d : Nat) : Int :=
  let k : Int := (ilog2 n : Int) - (ilog2 d : Int)
  if pow2Le k n d then k else k - 1

/-- The Number nearest to the rational `n / d` (`d > 0`), with sign `neg`:
IEEE-754 binary64 round-to-nearest, ties-to-even.  The quantum is
`2^(floor(log2 (n/d)) - 52)`, not below `2^-1074` (subnormals); a result of
magnitude `2^1024` or more, one whose leading binary digit is at position
1024 or above, is an infinity. -/
def roundF64 (neg : Bool) (n d : Nat) : JSNum :=
  if n = 0 then .fin neg 0 0
  else
    let e : Int := max (floorLog2 n d - 52) (-1074)
    let m : Nat := if 0 ≤ e then rneDiv n (d * 2 ^ e.toNat) else rneDiv (n * 2 ^ (-e).toNat) d
    if 1024 ≤ (ilog2 m : Int) + e then .inf neg else .fin neg m e

namespace JSNum

/-- The Number of an integer `n` below `2^53`, which is exact: the literals
`1e9`, `1000`, `600` and `1` of the script, and the time value of `Date.now()`. -/
def int (n : Nat) : JSNum := .fin false n 0

/-- The Number for the decimal literal `n * 10^-k` (for instance `0.2` is
`ofDecimal 2 1`). -/
def ofDecimal (n k : Nat) : JSNum := roundF64 false n (10 ^ k)

/-- The operator `*` of two Numbers. -/
def mul : JSNum → JSNum → JSNum
  | .nan, _ => .nan
  | _, .nan => .nan
  | .inf s, .inf t => .inf (xor s t)
  | .inf s, .fin t m _ => if m = 0 then .nan else .inf (xor s t)
  | .fin s m _, .inf t => if m = 0 then .nan else .inf (xor s t)
  | .fin s m e, .fin t m' e' =>
    let k : Int := e + e'
    if 0 ≤ k then roundF64 (xor s t) (m * m' * 2 ^ k.toNat) 1
    else roundF64 (xor s t) (m * m') (2 ^ (-k).toNat)

/-- The operator `/` of two Numbers. -/
def div : JSNum → JSNum → JSNum
  | .nan, _ => .nan
  | _, .nan => .nan
  | .inf _, .inf _ => .nan
  | .inf s, .fin t _ _ => .inf (xor s t)
  | .fin s _ _, .inf t => .fin (xor s t) 0 0
  | .fin s m e, .fin t m' e' =>
    if m' = 0 then (if m = 0 then .nan else .inf (xor s t))
    else
      let k : Int := e - e'
      if 0 ≤ k then roundF64 (xor s t) (m * 2 ^ k.toNat) m'
      else roundF64 (xor s t) m (m' * 2 ^ (-k).toNat)

/-- The operator `+` of two Numbers. -/
def add : JSNum → JSNum → JSNum
  | .nan, _ => .nan
  | _, .nan => .nan
  | .inf s, .inf t => if s = t then .inf s else .nan
  | .inf s, .fin _ _ _ => .inf s
  | .fin _ _ _, .inf t => .inf t
  | .fin s m e, .fin t m' e' =>
    let e0 : Int := min e e'
    let a : Int := (if s then -1 else 1) * ((m * 2 ^ (e - e0).toNat : Nat) : Int)
    let b : Int := (if t then -1 else 1) * ((m' * 2 ^ (e' - e0).toNat : Nat) : Int)
    let c : Int := a + b
    if c = 0 then .fin (s && t) 0 0
    else if 0 ≤ e0 then roundF64 (decide (c < 0)) (c.natAbs * 2 ^ e0.toNat) 1
    else roundF64 (decide (c < 0)) c.natAbs (2 ^ (-e0).toNat)

/-- The function `Math.floor`. -/
def floor : JSNum → JSNum
  | .fin neg m e =>
    if 0 ≤ e then .fin neg m e
    else
      let q := m / 2 ^ (-e).toNat
      if neg then (if m % 2 ^ (-e).toNat = 0 then .fin true q 0 else .fin true (q + 1) 0)
      else .fin false q 0
  | x => x

/-- The conversion `BigInt(number)`: a `RangeError` unless the Number is an
integer. -/
def toBigInt : JSNum → Except JSError Int
  | .fin neg m e =>
    if 0 ≤ e then .ok ((if neg then -1 else 1) * ((m * 2 ^ e.toNat : Nat) : Int))
    else if m % 2 ^ (-e).toNat = 0 then
      .ok ((if neg then -1 else 1) * ((m / 2 ^ (-e).toNat : Nat) : Int))
    else .error .rangeError
  | _ => .error .rangeError

/-- The operator `===` of two Numbers: `NaN` equals nothing, `-0` equals `+0`,
finite values are equal when they denote the same value. -/
def strictEq : JSNum → JSNum → Bool
  | .fin s m e, .fin t m' e' =>
    let e0 : Int := min e e'
    let a := m * 2 ^ (e - e0).toNat
    let b := m' * 2 ^ (e' - e0).toNat
    decide (a = b) && (decide (a = 0) || decide (s = t))
  | .inf s, .inf t => decide (s = t)
  | _, _ => false

end JSNum

/-! ## The runtime outside the script -/

/-- A value obtained from a parsed JSON body, or `undefined`. -/
inductive JSVal where
  | undefined
  | null
  | bool (b : Bool)
  | num (x : JSNum)
  | str (s : String)
  | arr (items : List JSVal)
  | obj (fields : List (String × JSVal))

/-- The parts of the runtime and of the imported libraries that the script
calls and that are not modelled: they are parameters of every definition
that reaches them. -/
structure Runtime where
  /-- The library call `beginCell().storeUint(op, 32).endCell().toBoc()`
  followed by `Buffer.from(boc).toString('base64')`; it may throw. -/
  bocBase64 : Nat → Except JSError String
  /-- The operation `Number::toString` on a finite Number of magnitude
  `10^21` or more. -/
  numberToString : JSNum → String
  /-- The abstract operation `ToString` on a value that is not a string; it
  may throw. -/
  valueToString : JSVal → Except JSError String

/-- The characters `parseInt` skips at the start: ECMAScript `WhiteSpace`
and `LineTerminator`. -/
def isStrWhiteSpace (c : Char) : Bool :=
  let n := c.toNat
  n = 0x9 || n = 0xA || n = 0xB || n = 0xC || n = 0xD || n = 0x20 || n = 0xA0 ||
  n = 0x1680 || (0x2000 ≤ n && n ≤ 0x200A) || n = 0x2028 || n = 0x2029 ||
  n = 0x202F || n = 0x205F || n = 0x3000 || n = 0xFEFF

/-- The value of a character as a digit, up to radix 36. -/
def digitValue (c : Char) : Option Nat :=
  let n := c.toNat
  if 48 ≤ n ∧ n ≤ 57 then some (n - 48)
  else if 97 ≤ n ∧ n ≤ 122 then some (n - 97 + 10)
  else if 65 ≤ n ∧ n ≤ 90 then some (n - 65 + 10)
  else none

/-- The value of the longest prefix of `cs` made of digits of the radix,
read after the digits `acc` already seen; `none` when `cs` starts with no
digit and `seen` is false. -/
def parseDigits (radix : Nat) : List Char → Nat → Bool → Option Nat
  | [], acc, seen => if seen then some acc else none
  | c :: cs, acc, seen =>
    match digitValue c with
    | some v =>
      if v < radix then parseDigits radix cs (acc * radix + v) true
      else if seen then some acc else none
    | none => if seen then some acc else none

/-- The function `parseInt` on a string, with no radix argument: leading
white space, an optional sign, an optional `0x` prefix, then the longest
run of digits; `NaN` when there is no digit. -/
def parseIntString (s : String) : JSNum :=
  let cs := s.toList.dropWhile isStrWhiteSpace
  let neg := decide (cs.head? = some '-')
  let cs := if cs.head? = some '-' ∨ cs.head? = some '+' then cs.tail else cs
  let hex := decide (cs.take 2 = ['0', 'x'] ∨ cs.take 2 = ['0', 'X'])
  let cs := if hex then cs.drop 2 else cs
  match parseDigits (if hex then 16 else 10) cs 0 false with
  | some n => roundF64 neg n 1
  | none => .nan

/-- The function `parseInt` on any value: `ToString` first. -/
def parseInt (rt : Runtime) : JSVal → Except JSError JSNum
  | .str s => .ok (parseIntString s)
  | v =>
    match rt.valueToString v with
    | .ok s => .ok (parseIntString s)
    | .error err => .error err

/-- The decimal digits of `n` with a point before the last two, padded with
zeros to at least three digits: the string `Number.prototype.toFixed`
builds from its integer `n` when `fractionDigits` is 2. -/
def fixedDigits (n : Nat) : String :=
  let m := (toString n).toList
  let m := List.replicate (3 - m.length) '0' ++ m
  String.mk (m.take (m.length - 2) ++ '.' :: m.drop (m.length - 2))

/-- The integer nearest to `100 * m * 2^e`, the larger one of two. -/
def roundHundredths (m : Nat) (e : Int) : Nat :=
  if 0 ≤ e then 100 * m * 2 ^ e.toNat
  else (200 * m + 2 ^ (-e).toNat) / 2 ^ ((-e).toNat + 1)

/-- Whether `10^21 ≤ m * 2^e`. -/
def atLeast1e21 (m : Nat) (e : Int) : Bool :=
  if 0 ≤ e then decide (10 ^ 21 ≤ m * 2 ^ e.toNat) else decide (10 ^ 21 * 2 ^ (-e).toNat ≤ m)

/-- The method `Number.prototype.toFixed` with `fractionDigits` 2. -/
def toFixed2 (rt : Runtime) : JSNum → String
  | .nan => "NaN"
  | .inf false => "Infinity"
  | .inf true => "-Infinity"
  | .fin neg m e =>
    let s := if neg ∧ m ≠ 0 then "-" else ""
    if atLeast1e21 m e then s ++ rt.numberToString (.fin false m e)
    else s ++ fixedDigits (roundHundredths m e)

/-- The property read `v.output`: a `TypeError` on `undefined` and `null`,
the last field of that name of an object, `undefined` otherwise. -/
def getOutput : JSVal → Except JSError JSVal
  | .undefined => .error .typeError
  | .null => .error .typeError
  | .obj fields =>
    match fields.reverse.find? (fun f => f.1 = "output") with
    | some f => .ok f.2
    | none => .ok .undefined
  | _ => .ok .undefined

/-- The UTF-16 code units of a string.  A surrogate half is no character:
it is written U+FFFD, which `parseInt` reads the same way, as no digit. -/
def codeUnits : List Char → List Char
  | [] => []
  | c :: cs =>
    if c.toNat < 0x10000 then c :: codeUnits cs
    else Char.ofNat 0xFFFD :: Char.ofNat 0xFFFD :: codeUnits cs

/-- The property read `v[i]` for an index `i`: a `TypeError` on `undefined`
and `null`, the element of an array, the code unit of a string, the field
named by the digits of `i` of an object, `undefined` otherwise. -/
def getIndex (i : Nat) : JSVal → Except JSError JSVal
  | .undefined => .error .typeError
  | .null => .error .typeError
  | .arr items =>
    match items.get? i with
    | some v => .ok v
    | none => .ok .undefined
  | .str s =>
    match (codeUnits s.toList).get? i with
    | some c => .ok (.str (String.mk [c]))
    | none => .ok .undefined
  | .obj fields =>
    match fields.reverse.find? (fun f => f.1 = toString i) with
    | some f => .ok f.2
    | none => .ok .undefined
  | _ => .ok .undefined

/-- An HTTP response: its `ok` flag and what `json()` settles to. -/
structure Response where
  ok : Bool
  json : Except JSError JSVal

/-- A message of a transaction request. -/
structure Message where
  address : String
  amount : String
  payload : String
deriving DecidableEq, Repr

/-- The request handed to `sendTransaction`. -/
structure TxRequest where
  validUntil : JSNum
  messages : List Message
deriving DecidableEq, Repr

/-- What the outside answers during one handler run: the clock, the
indexer, and the wallet widget. -/
structure World where
  /-- The time value `Date.now()` returns, in milliseconds. -/
  now : Nat
  /-- What `fetch(url)` settles to. -/
  fetch : String → Except JSError Response
  /-- What the call of `sendTransaction` settles to (a handler makes at most
  one). -/
  sendTransaction : Except JSError Unit

/-- A call the script makes to the outside. -/
inductive Call where
  | fetch (url : String)
  | sendTransaction (tx : TxRequest)
  | consoleError (label : String) (err : JSError)
deriving DecidableEq, Repr

/-! ## The page -/

/-- The elements of the document the script reads and writes. -/
structure Dom where
  yesBtnDisabled : Bool
  noBtnDisabled : Bool
  claimBtnDisabled : Bool
  yesPool : String
  noPool : String
  claimSectionHidden : Bool
  /-- The custom properties set on the root element, latest first. -/
  style : List (String × String)
deriving DecidableEq, Repr

/-- The state of the page: the variable `connected`, the document, and the
calls made to the outside so far, oldest first. -/
structure Page where
  connected : Bool
  dom : Dom
  calls : List Call
deriving DecidableEq, Repr

/-- A computation of the script: it runs from a page state to a page state
and either returns a value or throws (for an `async` function: the promise
resolves or rejects).  An `await` is sequencing: each handler is run to
completion. -/
def JS (α : Type) : Type := Page → Page × Except JSError α

namespace JS

/-- Return a value. -/
def ret {α : Type} (a : α) : JS α := fun p => (p, .ok a)

/-- Sequencing; a throw skips what follows and keeps the state reached. -/
def seq {α β : Type} (x : JS α) (f : α → JS β) : JS β := fun p =>
  match x p with
  | (p', .ok a) => f a p'
  | (p', .error err) => (p', .error err)

/-- The statement `throw`. -/
def throw {α : Type} (err : JSError) : JS α := fun p => (p, .error err)

/-- The statement `try { x } catch (err) { h err }`. -/
def tryCatch {α : Type} (x : JS α) (h : JSError → JS α) : JS α := fun p =>
  match x p with
  | (p', .ok a) => (p', .ok a)
  | (p', .error err) => h err p'

/-- The outcome of a runtime operation that may throw. -/
def lift {α : Type} (r : Except JSError α) : JS α := fun p => (p, r)

/-- Record a call to the outside. -/
def call (c : Call) : JS Unit := fun p => ({ p with calls := p.calls ++ [c] }, .ok ())

/-- Write to the document. -/
def setDom (f : Dom → Dom) : JS Unit := fun p => ({ p with dom := f p.dom }, .ok ())

end JS

instance : Monad JS where
  pure := JS.ret
  bind := JS.seq

/-! ## Configuration and helpers of `app.js` -/

/-- The constant `CONTRACT_ADDRESS`. -/
def CONTRACT_ADDRESS : String := "EQXXXXXXXXXXXXXXXXXXXXXXXXXXXXXXXXXXXXXXXXXXXXXXXXXX"

/-- The constant `DEFAULT_BET_AMOUNT`, the literal `0.2`. -/
def DEFAULT_BET_AMOUNT : JSNum := JSNum.ofDecimal 2 1

/-- The function `buildPayload`: the cell with the 32-bit `op`, as a
base64 bag of cells. -/
def buildPayload (rt : Runtime) (op : Nat) : Except JSError String :=
  rt.bocBase64 op

/-- The function `toNanoString`:
`BigInt(Math.floor(amountTon * 1e9)).toString()`. -/
def toNanoString (amountTon : JSNum) : Except JSError String :=
  match JSNum.toBigInt (JSNum.floor (JSNum.mul amountTon (JSNum.int (10 ^ 9)))) with
  | .ok nano => .ok (toString nano)
  | .error err => .error err

/-- The object `Telegram.WebApp.themeParams`: each colour is a string when
the host supplies it. -/
structure ThemeParams where
  bg_color : Option String
  text_color : Option String
  button_color : Option String
  button_text_color : Option String
  hint_color : Option String
  secondary_bg_color : Option String
deriving DecidableEq, Repr

/-- The expression `value || fallback` for a string property that may be
missing: the empty string is falsy like a missing property. -/
def orElse (value : Option String) (fallback : String) : String :=
  match value with
  | some v => if v = "" then fallback else v
  | none => fallback

/-- The call `root.style.setProperty(name, value)`. -/
def setProperty (name value : String) : JS Unit :=
  JS.setDom fun d => { d with style := (name, value) :: d.style }

/-- The value of a custom property of the root element. -/
def getPropertyValue (d : Dom) (name : String) : Option String :=
  (d.style.find? fun nv => nv.1 = name).map Prod.snd

/-- The function `applyTheme`. -/
def applyTheme (params : Option ThemeParams) (scheme : String) : JS Unit :=
  match params with
  | none => pure ()
  | some params => do
    setProperty "--bg-color"
      ("#" ++ orElse params.bg_color (if scheme = "dark" then "0d1117" else "f5f5f5"))
    setProperty "--text-color"
      ("#" ++ orElse params.text_color (if scheme = "dark" then "ffffff" else "202020"))
    setProperty "--button-color"
      ("#" ++ orElse params.button_color (if scheme = "dark" then "2a86ff" else "0088cc"))
    setProperty "--button-text-color"
      ("#" ++ orElse params.button_text_color "ffffff")
    setProperty "--hint-color"
      ("#" ++ orElse params.hint_color (if scheme = "dark" then "888888" else "6d6d6d"))
    setProperty "--section-bg"
      ("#" ++ orElse params.secondary_bg_color (if scheme = "dark" then "161c26" else "ffffff"))

/-- The function `toggleInteraction`. -/
def toggleInteraction (isConnected : Bool) : JS Unit :=
  JS.setDom fun d =>
    { d with
      yesBtnDisabled := !isConnected
      noBtnDisabled := !isConnected
      claimBtnDisabled := !isConnected }

/-- The URL of the `getTotals` getter. -/
def totalsUrl : String :=
  "https://tonapi.io/v1/blockchain/getter?address=" ++ CONTRACT_ADDRESS ++ "&method=getTotals"

/-- The URL of the `getState` getter. -/
def stateUrl : String :=
  "https://tonapi.io/v1/blockchain/getter?address=" ++ CONTRACT_ADDRESS ++ "&method=getState"

/-- The expression `await fetch(url)`. -/
def fetch (w : World) (url : String) : JS Response := do
  JS.call (.fetch url)
  JS.lift (w.fetch url)

/-- The function `updatePools`. -/
def updatePools (rt : Runtime) (w : World) : JS Unit :=
  JS.tryCatch
    (do
      let totalsRes ← fetch w totalsUrl
      let stateRes ← fetch w stateUrl
      if !totalsRes.ok || !stateRes.ok then
        JS.throw .failedToFetchContractState
      else do
        let totalsData ← JS.lift totalsRes.json
        let stateData ← JS.lift stateRes.json
        let yes ← JS.lift ((getOutput totalsData).bind (getIndex 0) |>.bind (parseInt rt))
        let no ← JS.lift ((getOutput totalsData).bind (getIndex 1) |>.bind (parseInt rt))
        let marketState ← JS.lift ((getOutput stateData).bind (getIndex 0) |>.bind (parseInt rt))
        let _outcome ← JS.lift ((getOutput stateData).bind (getIndex 1) |>.bind (parseInt rt))
        JS.setDom fun d =>
          { d with yesPool := toFixed2 rt (JSNum.div yes (JSNum.int (10 ^ 9))) ++ " TON" }
        JS.setDom fun d =>
          { d with noPool := toFixed2 rt (JSNum.div no (JSNum.int (10 ^ 9))) ++ " TON" }
        if JSNum.strictEq marketState (JSNum.int 1) then
          JS.setDom fun d => { d with claimSectionHidden := false }
        else
          JS.setDom fun d => { d with claimSectionHidden := true })
    (fun err => JS.call (.consoleError "Unable to update pools:" err))

/-- The expression `Math.floor(Date.now() / 1000) + 600`. -/
def validUntil (w : World) : JSNum :=
  JSNum.add (JSNum.floor (JSNum.div (JSNum.int w.now) (JSNum.int 1000))) (JSNum.int 600)

/-- The function `placeBet`. -/
def placeBet (rt : Runtime) (w : World) (op : Nat) : JS Unit := do
  let payload ← JS.lift (buildPayload rt op)
  let amount ← JS.lift (toNanoString DEFAULT_BET_AMOUNT)
  let tx : TxRequest :=
    { validUntil := validUntil w
      messages := [{ address := CONTRACT_ADDRESS, amount := amount, payload := payload }] }
  JS.tryCatch
    (do
      JS.call (.sendTransaction tx)
      JS.lift w.sendTransaction
      updatePools rt w)
    (fun err => JS.call (.consoleError "Bet failed:" err))

/-- The function `claimWinnings`. -/
def claimWinnings (rt : Runtime) (w : World) : JS Unit := do
  let payload ← JS.lift (buildPayload rt 3)
  let tx : TxRequest :=
    { validUntil := validUntil w
      messages := [{ address := CONTRACT_ADDRESS, amount := "0", payload := payload }] }
  JS.tryCatch
    (do
      JS.call (.sendTransaction tx)
      JS.lift w.sendTransaction
      updatePools rt w)
    (fun err => JS.call (.consoleError "Claim failed:" err))

/-- The wallet descriptor the widget reports. -/
structure Wallet where
  addr : String
deriving DecidableEq, Repr

/-- The callback given to `tonConnectUI.onStatusChange`; `none` is `null`. -/
def onStatusChange (rt : Runtime) (w : World) (wallet : Option Wallet) : JS Unit := do
  let connected := wallet.isSome
  (fun p => ({ p with connected := connected }, .ok ()) : JS Unit)
  toggleInteraction connected
  if connected then updatePools rt w else pure ()

/-- The click handler of `yes-btn`. -/
def onYesClick (rt : Runtime) (w : World) : JS Unit := fun p =>
  if !p.connected then (p, .ok ()) else placeBet rt w 0 p

/-- The click handler of `no-btn`. -/
def onNoClick (rt : Runtime) (w : World) : JS Unit := fun p =>
  if !p.connected then (p, .ok ()) else placeBet rt w 1 p

/-- The click handler of `claim-btn`. -/
def onClaimClick (rt : Runtime) (w : World) : JS Unit := fun p =>
  if !p.connected then (p, .ok ()) else claimWinnings rt w p

/-- The top level of the script, run once on the document `html`:
`connected = false`, the theme of the host when `Telegram.WebApp` exists
(its `themeParams` and `colorScheme`), and `toggleInteraction(false)`. -/
def pageLoad (telegram : Option (Option ThemeParams × String)) (html : Dom) : Page :=
  let p : Page := { connected := false, dom := html, calls := [] }
  let p :=
    match telegram with
    | some (params, scheme) => (applyTheme params scheme p).1
    | none => p
  (toggleInteraction false p).1

/-- What can happen to the page after load. -/
inductive Event where
  | statusChange (wallet : Option Wallet)
  | clickYes
  | clickNo
  | clickClaim
  | themeChanged (params : Option ThemeParams) (scheme : String)
deriving DecidableEq, Repr

/-- The handler the script registered for an event. -/
def handle (rt : Runtime) (w : World) : Event → JS Unit
  | .statusChange wallet => onStatusChange rt w wallet
  | .clickYes => onYesClick rt w
  | .clickNo => onNoClick rt w
  | .clickClaim => onClaimClick rt w
  | .themeChanged params scheme => applyTheme params scheme

/-- The page after one event, answered by the world `ew.2`. -/
def step (rt : Runtime) (p : Page) (ew : Event × World) : Page :=
  (handle rt ew.2 ew.1 p).1

/-- The page after a sequence of events. -/
def run (rt : Runtime) (evs : List (Event × World)) (p : Page) : Page :=
  evs.foldl (step rt) p

/-- The pages reached after each event of a sequence, in order. -/
def runStates (rt : Runtime) : List (Event × World) → Page → List Page
  | [], _ => []
  | ew :: evs, p => step rt p ew :: runStates rt evs (step rt p ew)

/-- The transaction requests among the calls, in order. -/
def sentRequests (calls : List Call) : List TxRequest :=
  calls.filterMap fun c =>
    match c with
    | .sendTransaction tx => some tx
    | _ => none

/-- The number of refreshes started: every run of `updatePools` starts with
one `fetch` of the `getTotals` getter and makes no other. -/
def refreshCount (calls : List Call) : Nat :=
  calls.count (.fetch totalsUrl)

/-- All three action controls are enabled. -/
def controlsEnabled (p : Page) : Bool :=
  !p.dom.yesBtnDisabled && !p.dom.noBtnDisabled && !p.dom.claimBtnDisabled

/-- All three action controls are disabled. -/
def controlsDisabled (p : Page) : Bool :=
  p.dom.yesBtnDisabled && p.dom.noBtnDisabled && p.dom.claimBtnDisabled

/-- A computation that makes no call to the outside and leaves alone the
variable `connected`, the three buttons and the style of the root. -/
def JS.Quiet {α : Type} (x : JS α) : Prop :=
  ∀ p, (x p).1.calls = p.calls ∧ (x p).1.connected = p.connected ∧
    (x p).1.dom.yesBtnDisabled = p.dom.yesBtnDisabled ∧
    (x p).1.dom.noBtnDisabled = p.dom.noBtnDisabled ∧
    (x p).1.dom.claimBtnDisabled = p.dom.claimBtnDisabled ∧
    (x p).1.dom.style = p.dom.style

/-- A document write that touches only the pool texts and the claim
section. -/
def PoolWrite (f : Dom → Dom) : Prop :=
  ∀ d, (f d).yesBtnDisabled = d.yesBtnDisabled ∧ (f d).noBtnDisabled = d.noBtnDisabled ∧
    (f d).claimBtnDisabled = d.claimBtnDisabled ∧ (f d).style = d.style

/-- A runtime for the examples: the codec writes `boc` and the op code. -/
def sampleRuntime : Runtime :=
  { bocBase64 := fun op => .ok ("boc" ++ toString op)
    numberToString := fun _ => "1e+21"
    valueToString := fun _ => .ok "undefined" }

/-- A document for the examples. -/
def sampleDom : Dom :=
  { yesBtnDisabled := false
    noBtnDisabled := false
    claimBtnDisabled := false
    yesPool := "-"
    noPool := "-"
    claimSectionHidden := true
    style := [] }

/-- The body of an indexer response: an object whose `output` is the array
of the given strings. -/
def outputBody (items : List String) : JSVal :=
  .obj [("output", .arr (items.map JSVal.str))]

/-- An indexer for the examples: both getters answer, with the given `ok`
flags and output strings. -/
def sampleIndexer (okTotals okState : Bool) (totals state : List String) :
    String → Except JSError Response := fun url =>
  if url = totalsUrl then .ok { ok := okTotals, json := .ok (outputBody totals) }
  else .ok { ok := okState, json := .ok (outputBody state) }

/-- A world for the examples: the wallet approves, the market is resolved. -/
def sampleWorld : World :=
  { now := 1700000000123
    fetch := sampleIndexer true true ["200000000000", "100000000000"] ["1", "1"]
    sendTransaction := .ok () }

/-- A world for the examples in which the wallet widget rejects. -/
def rejectingWorld : World :=
  { sampleWorld with sendTransaction := .error .walletRejected }

/-- A world for the examples in which the `getState` response is not ok. -/
def failingWorld : World :=
  { sampleWorld with
    fetch := sampleIndexer true false ["200000000000", "100000000000"] ["1", "1"] }

/-- The notifications received while Disconnected that carry a wallet: the
entries to Connected of the Connection Monitor, starting from `connected`. -/
def entriesToConnected : Bool → List (Option Wallet) → Nat
  | _, [] => 0
  | connected, wallet :: rest =>
    (if !connected && wallet.isSome then 1 else 0) + entriesToConnected wallet.isSome rest

/-- The number `c / 100` written with exactly two decimals: the integer
part, a point, and the two digits of the hundredths. -/
def twoDecimals (c : Nat) : String :=
  toString (c / 100) ++ "." ++ String.mk [Nat.digitChar (c / 10 % 10), Nat.digitChar (c % 10)]

/-- The integer `c` is a nearest integer to `y / 10^7`: `c / 100` is `y / 10^9`
rounded to the nearest hundredth, a tie going either way. -/
def NearestHundredth (c y : Nat) : Prop :=
  2 * (c * 10 ^ 7) ≤ 2 * y + 10 ^ 7 ∧ 2 * y ≤ 2 * (c * 10 ^ 7) + 10 ^ 7

/-- A sequence of wallet status notifications as events, each with the
world that answers its refresh. -/
def notifications (ws : List (Option Wallet × World)) : List (Event × World) :=
  ws.map fun ww => (Event.statusChange ww.1, ww.2)

/-- After `applyTheme` the custom property `name` holds `#` and the host's
value when that value is a non-empty string, and `#` and the fallback when
the value is missing or empty. -/
def SetsRole (d : Dom) (name : String) (value : Option String) (fallback : String) : Prop :=
  (∀ v, value = some v → v ≠ "" → getPropertyValue d name = some ("#" ++ v)) ∧
  (value = none ∨ value = some "" → getPropertyValue d name = some ("#" ++ fallback))

/-- The empty palette: the host supplies no colour. -/
def emptyTheme : ThemeParams :=
  { bg_color := none, text_color := none, button_color := none, button_text_color := none,
    hint_color := none, secondary_bg_color := none }

/-- A transaction request this page may hand to the wallet widget: one
message to the contract, which is a bet (op 0 or 1) with the default stake
or a claim (op 3) with amount `0`. -/
def GoodRequest (rt : Runtime) (tx : TxRequest) : Prop :=
  ∃ msg, tx.messages = [msg] ∧ msg.address = CONTRACT_ADDRESS ∧
    (∃ k : Nat, msg.amount = toString k) ∧
    ((∃ op, (op = 0 ∨ op = 1) ∧ buildPayload rt op = .ok msg.payload) ∨
      (buildPayload rt 3 = .ok msg.payload ∧ msg.amount = "0"))

/-! ## Rounding lemmas -/

theorem ilog2Loop_spec (fuel n : Nat) (hn : 0 < n) (hf : n ≤ fuel) :
    2 ^ ilog2Loop fuel n ≤ n ∧ n < 2 ^ (ilog2Loop fuel n + 1) := by
  induction fuel generalizing n with
  | zero => omega
  | succ fuel ih =>
    unfold ilog2Loop
    split
    · simp
      omega
    · have h2 : 0 < n / 2 := Nat.div_pos (by omega) (by omega)
      have h3 : n / 2 ≤ fuel := by omega
      obtain ⟨a, b⟩ := ih (n / 2) h2 h3
      rw [pow_succ] at b ⊢
      rw [pow_succ 2 (ilog2Loop fuel (n / 2) + 1), pow_succ 2 (ilog2Loop fuel (n / 2))]
      constructor <;> omega

theorem ilog2_spec (n : Nat) (hn : 0 < n) : 2 ^ ilog2 n ≤ n ∧ n < 2 ^ (ilog2 n + 1) :=
  ilog2Loop_spec n n hn le_rfl

/-- The exponent `floorLog2 n d` is below `J` when `n / d < 2^J`. -/
theorem floorLog2_lt (n d J : Nat) (hn : 0 < n) (hd : 0 < d) (h : n < d * 2 ^ J) :
    floorLog2 n d < (J : Int) := by
  obtain ⟨ha, -⟩ := ilog2_spec n hn
  obtain ⟨-, hb⟩ := ilog2_spec d hd
  have h1 : 2 ^ ilog2 n < 2 ^ (ilog2 d + 1 + J) := by
    calc 2 ^ ilog2 n ≤ n := ha
      _ < d * 2 ^ J := h
      _ ≤ 2 ^ (ilog2 d + 1) * 2 ^ J := Nat.mul_le_mul_right _ hb.le
      _ = 2 ^ (ilog2 d + 1 + J) := (pow_add 2 _ _).symm
  have h2 : ilog2 n < ilog2 d + 1 + J := (Nat.pow_lt_pow_iff_right (by norm_num)).mp h1
  unfold floorLog2
  simp only []
  split
  · rename_i hp
    by_contra hcon
    have hk : (ilog2 n : Int) - (ilog2 d : Int) = (J : Int) := by omega
    rw [hk] at hp
    simp [pow2Le] at hp
    omega
  · omega

theorem rneDiv_err (n d : Nat) (hd : 0 < d) :
    2 * (rneDiv n d * d) ≤ 2 * n + d ∧ 2 * n ≤ 2 * (rneDiv n d * d) + d := by
  have h1 := Nat.div_add_mod n d
  have h2 := Nat.mod_lt n hd
  have h3 : (n / d + 1) * d = d * (n / d) + d := by ring
  have h4 : n / d * d = d * (n / d) := by ring
  unfold rneDiv
  simp only []
  split
  · rw [h4]; omega
  · split
    · rw [h3]; omega
    · split
      · rw [h4]; omega
      · rw [h3]; omega

theorem rneDiv_scale (c n d : Nat) (hc : 0 < c) : rneDiv (c * n) (c * d) = rneDiv n d := by
  unfold rneDiv
  simp only [Nat.mul_div_mul_left _ _ hc, Nat.mul_mod_mul_left]
  have e1 : 2 * (c * (n % d)) < c * d ↔ 2 * (n % d) < d := by
    rw [show 2 * (c * (n % d)) = c * (2 * (n % d)) by ring]
    exact Nat.mul_lt_mul_left hc
  have e2 : c * d < 2 * (c * (n % d)) ↔ d < 2 * (n % d) := by
    rw [show 2 * (c * (n % d)) = c * (2 * (n % d)) by ring]
    exact Nat.mul_lt_mul_left hc
  simp only [e1, e2]

theorem rneDiv_one (n : Nat) : rneDiv n 1 = n := by
  simp [rneDiv, Nat.mod_one]

theorem ilog2_lt (m k : Nat) (h : m < 2 ^ k) : ilog2 m < k + 1 := by
  rcases Nat.eq_zero_or_pos m with h0 | h0
  · subst h0
    simp [ilog2, ilog2Loop]
  · obtain ⟨ha, -⟩ := ilog2_spec m h0
    have : 2 ^ ilog2 m < 2 ^ k := lt_of_le_of_lt ha h
    have := (Nat.pow_lt_pow_iff_right (by norm_num)).mp this
    omega

/-- The shape of a rounding below `2^53`: when `0 < n / d < 2^J` with
`J ≤ 53`, the result is `rneDiv (n * 2^s) d * 2^-s` for some `s ≥ 53 - J`. -/
theorem roundF64_shape (neg : Bool) (n d J : Nat) (hn : 0 < n) (hd : 0 < d)
    (h : n < d * 2 ^ J) (hJ : J ≤ 53) :
    ∃ s : Nat, 53 ≤ s + J ∧ roundF64 neg n d = .fin neg (rneDiv (n * 2 ^ s) d) (-(s : Int)) := by
  have hlt := floorLog2_lt n d J hn hd h
  have he : max (floorLog2 n d - 52) (-1074) ≤ 0 := by omega
  refine ⟨(-(max (floorLog2 n d - 52) (-1074))).toNat, by omega, ?_⟩
  have hs : ((-(max (floorLog2 n d - 52) (-1074))).toNat : Int)
      = -(max (floorLog2 n d - 52) (-1074)) := Int.toNat_of_nonneg (by omega)
  generalize hsdef : (-(max (floorLog2 n d - 52) (-1074))).toNat = s at hs ⊢
  have hm : (if 0 ≤ max (floorLog2 n d - 52) (-1074)
      then rneDiv n (d * 2 ^ (max (floorLog2 n d - 52) (-1074)).toNat)
      else rneDiv (n * 2 ^ s) d) = rneDiv (n * 2 ^ s) d := by
    split
    · have h00 : max (floorLog2 n d - 52) (-1074) = 0 := by omega
      have hs0 : s = 0 := by omega
      rw [h00, hs0]
      simp
    · rfl
  have hbound : rneDiv (n * 2 ^ s) d < 2 ^ (54 + s) := by
    have h5 := (rneDiv_err (n * 2 ^ s) d hd).1
    have h6 : 2 ^ J ≤ 2 ^ 53 := Nat.pow_le_pow_right (by norm_num) hJ
    have hpos : 0 < 2 ^ s := by positivity
    have h7 : n * 2 ^ s < d * 2 ^ 53 * 2 ^ s :=
      Nat.mul_lt_mul_of_pos_right (lt_of_lt_of_le h (Nat.mul_le_mul_left _ h6)) hpos
    have h8 : (2 : Nat) ^ (54 + s) = 2 * (2 ^ 53 * 2 ^ s) := by
      rw [show 54 + s = 1 + (53 + s) by omega, pow_add, pow_add]
      norm_num
    by_contra hcon
    push_neg at hcon
    have h9 : 2 ^ (54 + s) * d ≤ rneDiv (n * 2 ^ s) d * d := Nat.mul_le_mul_right _ hcon
    have h10' : 0 < 2 ^ 53 * 2 ^ s := by positivity
    have h10 : d * 1 ≤ d * (2 ^ 53 * 2 ^ s) := Nat.mul_le_mul_left _ h10'
    rw [h8] at h9
    nlinarith
  have hlog := ilog2_lt _ _ hbound
  unfold roundF64
  rw [if_neg (by omega)]
  simp only []
  rw [hsdef, hm]
  have hE : max (floorLog2 n d - 52) (-1074) = -(s : Int) := by omega
  rw [hE, if_neg (by omega)]

theorem floor_fin_neg_exp (m s : Nat) :
    JSNum.floor (.fin false m (-(s : Int))) = .fin false (m / 2 ^ s) 0 := by
  have h2 : (-(-(s : Int))).toNat = s := by omega
  by_cases h : (0 : Int) ≤ -(s : Int)
  · have h0 : s = 0 := by omega
    subst h0
    simp [JSNum.floor]
  · simp only [JSNum.floor, if_neg h, h2, Bool.false_eq_true, if_false]

theorem toBigInt_fin_int (n : Nat) : JSNum.toBigInt (.fin false n 0) = .ok (n : Int) := by
  simp [JSNum.toBigInt]

theorem toBigInt_fin_neg_exp (n s : Nat) :
    JSNum.toBigInt (.fin false (n * 2 ^ s) (-(s : Int))) = .ok (n : Int) := by
  have h2 : (-(-(s : Int))).toNat = s := by omega
  have hpos : 0 < 2 ^ s := by positivity
  by_cases h : (0 : Int) ≤ -(s : Int)
  · have h0 : s = 0 := by omega
    subst h0
    simp [JSNum.toBigInt]
  · simp only [JSNum.toBigInt, if_neg h, h2, Nat.mul_mod_left, if_true, Bool.false_eq_true,
      if_false, Nat.mul_div_cancel _ hpos, one_mul]

/-- An integer below `2^53` is a Number: rounding it is exact. -/
theorem toBigInt_roundF64_int (n : Nat) (h : n < 2 ^ 53) :
    JSNum.toBigInt (roundF64 false n 1) = .ok (n : Int) := by
  rcases Nat.eq_zero_or_pos n with h0 | h0
  · subst h0
    simp [roundF64, JSNum.toBigInt]
  · obtain ⟨s, -, hs⟩ := roundF64_shape false n 1 53 h0 (by norm_num) (by omega) le_rfl
    rw [hs, rneDiv_one, toBigInt_fin_neg_exp]

theorem add_fin_int (a b : Nat) (h : 0 < a + b) :
    JSNum.add (.fin false a 0) (.fin false b 0) = roundF64 false (a + b) 1 := by
  have h1 : ((a : Int) + (b : Int)) ≠ 0 := by omega
  have h2 : ¬ ((a : Int) + (b : Int) < 0) := by omega
  have h3 : ((a : Int) + (b : Int)).natAbs = a + b := by omega
  simp [JSNum.add, h1, h2, h3]

/-- Rounding `t / 1000` to a Number and flooring gives the integer quotient,
when the scale `2^s` of the rounding is at least `512`. -/
theorem rneDiv_thousand_floor (t s : Nat) (hs : 9 ≤ s) :
    rneDiv (t * 2 ^ s) 1000 / 2 ^ s = t / 1000 := by
  have hP : 2 ^ 9 ≤ 2 ^ s := Nat.pow_le_pow_right (by norm_num) hs
  have hpos : 0 < 2 ^ s := by positivity
  obtain ⟨e1, e2⟩ := rneDiv_err (t * 2 ^ s) 1000 (by norm_num)
  have h1 := Nat.div_add_mod t 1000
  have h2 := Nat.mod_lt t (show 0 < 1000 by norm_num)
  have h3 : t * 2 ^ s = 1000 * (t / 1000 * 2 ^ s) + t % 1000 * 2 ^ s := by
    conv_lhs => rw [← h1]
    ring
  have h4 : t % 1000 * 2 ^ s ≤ 999 * 2 ^ s := Nat.mul_le_mul_right _ (by omega)
  have h5 : (t / 1000 + 1) * 2 ^ s = t / 1000 * 2 ^ s + 2 ^ s := by ring
  norm_num at hP
  apply Nat.div_eq_of_lt_le
  · omega
  · rw [h5]
    omega

/-- The expiry is exact. For a time value below `2^53` the Number
`Math.floor(Date.now() / 1000) + 600` is the integer
`floor(now / 1000) + 600`. -/
theorem validUntil_value (w : World) (h : w.now < 2 ^ 53) :
    JSNum.toBigInt (validUntil w) = .ok ((w.now / 1000 + 600 : Nat) : Int) := by
  have hdiv : JSNum.div (JSNum.int w.now) (JSNum.int 1000) = roundF64 false w.now 1000 := by
    simp [JSNum.div, JSNum.int]
  unfold validUntil
  rw [hdiv]
  rcases Nat.eq_zero_or_pos w.now with h0 | h0
  · rw [h0]
    decide
  · obtain ⟨s, hs, hr⟩ := roundF64_shape false w.now 1000 44 h0 (by norm_num)
      (by norm_num at h ⊢; omega) (by norm_num)
    rw [hr, floor_fin_neg_exp, rneDiv_thousand_floor _ _ (by omega), JSNum.int,
      add_fin_int _ _ (by omega)]
    apply toBigInt_roundF64_int
    have : w.now / 1000 ≤ w.now := Nat.div_le_self _ _
    norm_num at h ⊢
    omega

theorem toBigInt_fin_neg_exp_inv (r s : Nat) (j : Int)
    (h : JSNum.toBigInt (.fin false r (-(s : Int))) = .ok j) : j = ((r / 2 ^ s : Nat) : Int) := by
  have h2 : (-(-(s : Int))).toNat = s := by omega
  by_cases h0 : (0 : Int) ≤ -(s : Int)
  · have hs : s = 0 := by omega
    subst hs
    simp [JSNum.toBigInt] at h
    simp [← h]
  · simp only [JSNum.toBigInt, if_neg h0, h2, Bool.false_eq_true, if_false, one_mul] at h
    by_cases hm : r % 2 ^ s = 0
    · rw [if_pos hm] at h
      cases h
      rfl
    · rw [if_neg hm] at h
      cases h

/-- The arithmetic of a round-up: when `r` is `n * P / d` rounded to nearest
and `2 * P * T` is at least `2^54`, the quotient `r / P` is `n / d`, or it is
`n / d + 1` with `r` exactly `(n / d + 1) * P` and within `T / 2^54` of the
exact `n / d`. -/
theorem round_up_arith (n d r P T : Nat) (hd : 0 < d) (hpos : 0 < P)
    (e1 : 2 * (r * d) ≤ 2 * (n * P) + d) (e2 : 2 * (n * P) ≤ 2 * (r * d) + d)
    (hM : 2 ^ 54 ≤ 2 * P * T) :
    r / P = n / d ∨ (r / P = n / d + 1 ∧ r = (n / d + 1) * P ∧
      2 ^ 54 * ((n / d + 1) * d) ≤ T * d + 2 ^ 54 * n) := by
  have hk1 : r / P * P ≤ r := Nat.div_mul_le_self _ _
  have hk2 : r + 1 ≤ (r / P + 1) * P := by
    have := Nat.lt_mul_div_succ r hpos
    rw [Nat.mul_comm] at this
    exact this
  have hq1 : n / d * d ≤ n := Nat.div_mul_le_self _ _
  have hq2 : n + 1 ≤ (n / d + 1) * d := by
    have := Nat.lt_mul_div_succ n hd
    rw [Nat.mul_comm] at this
    exact this
  generalize r / P = k at hk1 hk2 ⊢
  generalize n / d = q at hq1 hq2 ⊢
  have hPd : d ≤ P * d := by
    have := Nat.mul_le_mul_right d hpos
    simpa using this
  have hge : q ≤ k := by
    by_contra hcon
    push_neg at hcon
    have f1 : (r + 1) * d ≤ (k + 1) * P * d := Nat.mul_le_mul_right _ hk2
    have f2 : (k + 1) * P * d ≤ q * P * d :=
      Nat.mul_le_mul_right _ (Nat.mul_le_mul_right _ hcon)
    have f3 : q * d * P ≤ n * P := Nat.mul_le_mul_right _ hq1
    have g1 : (r + 1) * d = r * d + d := by ring
    have g2 : q * P * d = q * d * P := by ring
    omega
  have hle : k ≤ q + 1 := by
    by_contra hcon
    push_neg at hcon
    have f1 : (q + 2) * P * d ≤ k * P * d :=
      Nat.mul_le_mul_right _ (Nat.mul_le_mul_right _ hcon)
    have f2 : k * P * d ≤ r * d := Nat.mul_le_mul_right _ hk1
    have f3 : (n + 1) * P ≤ (q + 1) * d * P := Nat.mul_le_mul_right _ hq2
    have g1 : (q + 2) * P * d = (q + 1) * d * P + P * d := by ring
    have g2 : (n + 1) * P = n * P + P := by ring
    omega
  rcases Nat.lt_or_ge q k with hlt | hge'
  · right
    have hk : k = q + 1 := by omega
    subst hk
    have f2 : (q + 1) * P * d ≤ r * d := Nat.mul_le_mul_right _ hk1
    have f3 : (n + 1) * P ≤ (q + 1) * d * P := Nat.mul_le_mul_right _ hq2
    have g2 : (n + 1) * P = n * P + P := by ring
    have g3 : (q + 1) * d * P = (q + 1) * P * d := by ring
    have hr : r = (q + 1) * P := by
      apply le_antisymm
      · by_contra hcon
        push_neg at hcon
        have f4 : ((q + 1) * P + 1) * d ≤ r * d := Nat.mul_le_mul_right _ hcon
        have g4 : ((q + 1) * P + 1) * d = (q + 1) * P * d + d := by ring
        omega
      · exact hk1
    refine ⟨rfl, hr, ?_⟩
    obtain ⟨A, hA⟩ : ∃ A, (q + 1) * d = n + A := ⟨(q + 1) * d - n, by omega⟩
    have g5 : (q + 1) * P * d = n * P + A * P := by
      rw [← g3, hA]; ring
    have b2 : 2 * (A * P) ≤ d := by omega
    have b3 : 2 * (A * P) * T ≤ d * T := Nat.mul_le_mul_right _ b2
    have b4 : 2 ^ 54 * A ≤ 2 * P * T * A := Nat.mul_le_mul_right _ hM
    have g6 : 2 * P * T * A = 2 * (A * P) * T := by ring
    have g7 : d * T = T * d := by ring
    rw [hA]
    norm_num at b4 ⊢
    omega
  · left
    omega

/-- Rounding `n / d < 2^J` (`J ≤ 53`) to a Number and flooring gives the
integer quotient `n / d`, unless the rounding itself lands on the next
integer `n / d + 1`; that integer is then within `2^J / 2^54` of the exact
quotient.  When the rounded Number is an integer, it is the result. -/
theorem floor_roundF64_exact (n d J : Nat) (hd : 0 < d) (h : n < d * 2 ^ J) (hJ : J ≤ 53) :
    ∃ k : Nat, JSNum.toBigInt (JSNum.floor (roundF64 false n d)) = .ok (k : Int) ∧
      (∀ j, JSNum.toBigInt (roundF64 false n d) = .ok j → (k : Int) = j) ∧
      (k = n / d ∨
        (k = n / d + 1 ∧ JSNum.toBigInt (roundF64 false n d) = .ok (k : Int) ∧
          2 ^ 54 * (k * d) ≤ 2 ^ J * d + 2 ^ 54 * n)) := by
  rcases Nat.eq_zero_or_pos n with h0 | h0
  · subst h0
    refine ⟨0, by simp [roundF64, JSNum.floor, JSNum.toBigInt], ?_, Or.inl (by simp)⟩
    intro j hj
    simp [roundF64, JSNum.toBigInt] at hj
    simp [← hj]
  · obtain ⟨s, hsJ, hs⟩ := roundF64_shape false n d J h0 hd h hJ
    have hpos : 0 < 2 ^ s := by positivity
    obtain ⟨e1, e2⟩ := rneDiv_err (n * 2 ^ s) d hd
    have hM : 2 ^ 54 ≤ 2 * 2 ^ s * 2 ^ J := by
      have : (2 : Nat) * 2 ^ s * 2 ^ J = 2 ^ (1 + s + J) := by
        rw [pow_add, pow_add, pow_one]
      rw [this]
      exact Nat.pow_le_pow_right (by norm_num) (by omega)
    refine ⟨rneDiv (n * 2 ^ s) d / 2 ^ s, ?_, ?_, ?_⟩
    · rw [hs, floor_fin_neg_exp, toBigInt_fin_int]
    · intro j hj
      rw [hs] at hj
      exact (toBigInt_fin_neg_exp_inv _ _ _ hj).symm
    · rcases round_up_arith n d (rneDiv (n * 2 ^ s) d) (2 ^ s) (2 ^ J) hd hpos e1 e2 hM with
        hc | ⟨hc, hr, hb⟩
      · exact Or.inl hc
      · refine Or.inr ⟨hc, ?_, ?_⟩
        · rw [hs, hc, hr, toBigInt_fin_neg_exp]
        · rw [hc]
          exact hb

/-- The statement of `floor_roundF64_exact` over the rationals. -/
theorem floor_roundF64_rat (n d J : Nat) (hd : 0 < d) (hJ : J ≤ 53)
    (h : (n : ℚ) / d < 2 ^ J) :
    ∃ k : Int, JSNum.toBigInt (JSNum.floor (roundF64 false n d)) = .ok k ∧
      (∀ j, JSNum.toBigInt (roundF64 false n d) = .ok j → k = j) ∧
      (k = ⌊(n : ℚ) / d⌋ ∨
        (k = ⌊(n : ℚ) / d⌋ + 1 ∧ JSNum.toBigInt (roundF64 false n d) = .ok k ∧
          (k : ℚ) - (n : ℚ) / d ≤ 2 ^ J / 2 ^ 54)) := by
  have hdq : (0 : ℚ) < d := by exact_mod_cast hd
  have hnat : n < d * 2 ^ J := by
    rw [div_lt_iff₀ hdq] at h
    have : (n : ℚ) < ((d * 2 ^ J : Nat) : ℚ) := by
      push_cast
      linarith
    exact_mod_cast this
  have hfloor : ⌊(n : ℚ) / d⌋ = ((n / d : Nat) : Int) := by
    rw [Rat.floor_natCast_div_natCast]
    norm_cast
  obtain ⟨k, hk, huniq, hcase⟩ := floor_roundF64_exact n d J hd hnat hJ
  refine ⟨(k : Int), hk, huniq, ?_⟩
  rw [hfloor]
  rcases hcase with hc | ⟨hc, hint, hb⟩
  · left
    exact_mod_cast hc
  · right
    refine ⟨by exact_mod_cast hc, hint, ?_⟩
    have hbq : (2 : ℚ) ^ 54 * ((k : ℚ) * d) ≤ 2 ^ J * d + 2 ^ 54 * n := by
      exact_mod_cast hb
    have hsub : ((k : Int) : ℚ) - (n : ℚ) / d = ((k : ℚ) * d - n) / d := by
      field_simp
    rw [hsub, div_le_div_iff₀ hdq (by positivity)]
    linarith

/-- The product `amountTon * 1e9` of a non-negative finite Number, as the
rounding of a quotient of naturals. -/
theorem mul_1e9 (m : Nat) (e : Int) :
    ∃ n d : Nat, 0 < d ∧ (n : ℚ) / d = (m : ℚ) * 2 ^ e * 10 ^ 9 ∧
      JSNum.mul (.fin false m e) (JSNum.int (10 ^ 9)) = roundF64 false n d := by
  by_cases he : 0 ≤ e
  · refine ⟨m * 10 ^ 9 * 2 ^ e.toNat, 1, by norm_num, ?_, ?_⟩
    · have : (2 : ℚ) ^ e = 2 ^ e.toNat := by
        rw [← zpow_natCast, Int.toNat_of_nonneg he]
      rw [this]
      push_cast
      ring
    · simp [JSNum.mul, JSNum.int, he]
  · refine ⟨m * 10 ^ 9, 2 ^ (-e).toNat, by positivity, ?_, ?_⟩
    · have : (2 : ℚ) ^ e = (2 ^ (-e).toNat)⁻¹ := by
        rw [← zpow_natCast, Int.toNat_of_nonneg (by omega), zpow_neg, inv_inv]
      rw [this]
      push_cast
      field_simp
      norm_num
    · simp [JSNum.mul, JSNum.int, he]

/-! ## Decimal strings -/

/-- The digits of `n` in base ten, whatever the fuel and the digits already
produced. -/
theorem toDigitsCore_eq (n : Nat) :
    ∀ (fuel : Nat) (ds : List Char), n < fuel →
      Nat.toDigitsCore 10 fuel n ds = Nat.toDigits 10 n ++ ds := by
  induction n using Nat.strong_induction_on with
  | _ n ih =>
    intro fuel ds hf
    obtain ⟨f, rfl⟩ : ∃ f, fuel = f + 1 := ⟨fuel - 1, by omega⟩
    by_cases h : n / 10 = 0
    · simp [Nat.toDigits, Nat.toDigitsCore, h]
    · have hlt : n / 10 < n := Nat.div_lt_self (by omega) (by norm_num)
      have h1 := ih (n / 10) hlt f (Nat.digitChar (n % 10) :: ds) (by omega)
      have h2 := ih (n / 10) hlt n [Nat.digitChar (n % 10)] hlt
      simp only [Nat.toDigits, Nat.toDigitsCore, h, if_false] at h1 h2 ⊢
      rw [h1, h2]
      simp

theorem toDigits_of_lt (n : Nat) (h : n < 10) : Nat.toDigits 10 n = [Nat.digitChar n] := by
  have h0 : n / 10 = 0 := by omega
  have h1 : n % 10 = n := by omega
  simp [Nat.toDigits, Nat.toDigitsCore, h0, h1]

theorem toDigits_of_ge (n : Nat) (h : 10 ≤ n) :
    Nat.toDigits 10 n = Nat.toDigits 10 (n / 10) ++ [Nat.digitChar (n % 10)] := by
  have h0 : ¬ n / 10 = 0 := by omega
  have hlt : n / 10 < n := Nat.div_lt_self (by omega) (by norm_num)
  have h2 := toDigitsCore_eq (n / 10) n [Nat.digitChar (n % 10)] hlt
  simp only [Nat.toDigits, Nat.toDigitsCore, h0, if_false] at h2 ⊢
  rw [h2]

theorem digitValue_digitChar (k : Nat) (h : k < 10) : digitValue (Nat.digitChar k) = some k := by
  interval_cases k <;> rfl

theorem isStrWhiteSpace_digitChar (k : Nat) (h : k < 10) :
    isStrWhiteSpace (Nat.digitChar k) = false := by
  interval_cases k <;> rfl

/-- Reading back the digits of `n`. -/
theorem parseDigits_toDigits (n : Nat) :
    ∀ (acc : Nat) (seen : Bool) (ds : List Char),
      parseDigits 10 (Nat.toDigits 10 n ++ ds) acc seen =
        parseDigits 10 ds (acc * 10 ^ (Nat.toDigits 10 n).length + n) true := by
  induction n using Nat.strong_induction_on with
  | _ n ih =>
    intro acc seen ds
    by_cases h : n < 10
    · rw [toDigits_of_lt n h]
      simp [parseDigits, digitValue_digitChar n h, h]
    · have hlt : n / 10 < n := Nat.div_lt_self (by omega) (by norm_num)
      have hmod : n % 10 < 10 := Nat.mod_lt _ (by norm_num)
      rw [toDigits_of_ge n (by omega), List.append_assoc, ih (n / 10) hlt]
      simp only [List.singleton_append, parseDigits, digitValue_digitChar _ hmod, hmod, if_true,
        List.length_append, List.length_singleton]
      congr 1
      have := Nat.div_add_mod n 10
      rw [pow_succ]
      nlinarith

/-- Every character of the digits of `n` is a decimal digit. -/
theorem toDigits_digit (n : Nat) : ∀ c ∈ Nat.toDigits 10 n, ∃ k, k < 10 ∧ c = Nat.digitChar k := by
  induction n using Nat.strong_induction_on with
  | _ n ih =>
    intro c hc
    by_cases h : n < 10
    · rw [toDigits_of_lt n h] at hc
      exact ⟨n, h, by simpa using hc⟩
    · have hlt : n / 10 < n := Nat.div_lt_self (by omega) (by norm_num)
      rw [toDigits_of_ge n (by omega), List.mem_append] at hc
      rcases hc with hc | hc
      · exact ih (n / 10) hlt c hc
      · exact ⟨n % 10, Nat.mod_lt _ (by norm_num), by simpa using hc⟩

theorem toDigits_ne_nil (n : Nat) : Nat.toDigits 10 n ≠ [] := by
  by_cases h : n < 10
  · rw [toDigits_of_lt n h]; simp
  · rw [toDigits_of_ge n (by omega)]; simp

/-- The function `parseInt` on the digits of `n` after an optional minus
sign. -/
theorem parseIntString_digits (n : Nat) :
    parseIntString (String.mk (Nat.toDigits 10 n)) = roundF64 false n 1 ∧
    parseIntString (String.mk ('-' :: Nat.toDigits 10 n)) = roundF64 true n 1 := by
  obtain ⟨c, tl, hct⟩ : ∃ c tl, Nat.toDigits 10 n = c :: tl := by
    cases h : Nat.toDigits 10 n with
    | nil => exact absurd h (toDigits_ne_nil n)
    | cons c tl => exact ⟨c, tl, rfl⟩
  have hall := toDigits_digit n
  obtain ⟨k, hk, hck⟩ := hall c (by rw [hct]; simp)
  have hws : isStrWhiteSpace c = false := hck ▸ isStrWhiteSpace_digitChar k hk
  have hminus : c ≠ '-' := by
    rw [hck]; interval_cases k <;> decide
  have hplus : c ≠ '+' := by
    rw [hck]; interval_cases k <;> decide
  have hx : ∀ c' ∈ Nat.toDigits 10 n, c' ≠ 'x' ∧ c' ≠ 'X' := by
    intro c' hc'
    obtain ⟨k', hk', rfl⟩ := hall c' hc'
    constructor <;> (interval_cases k' <;> decide)
  have hhex : ¬ ((c :: tl).take 2 = ['0', 'x'] ∨ (c :: tl).take 2 = ['0', 'X']) := by
    cases tl with
    | nil => simp
    | cons c2 tl2 =>
      have := hx c2 (by rw [hct]; simp)
      simp [this.1, this.2]
  have hparse : parseDigits 10 (c :: tl) 0 false = some n := by
    have := parseDigits_toDigits n 0 false []
    rw [List.append_nil, hct] at this
    rw [this]
    simp [parseDigits]
  constructor
  · unfold parseIntString
    simp only [hct, List.dropWhile, hws, List.head?_cons, Option.some.injEq, hminus, hplus,
      or_self, if_false, hhex, decide_False, Bool.false_eq_true, hparse]
  · unfold parseIntString
    have hm : isStrWhiteSpace '-' = false := by decide
    simp only [hct, List.dropWhile, hm, List.head?_cons, true_or, if_true, List.tail_cons,
      decide_True, hhex, decide_False, Bool.false_eq_true, if_false, hparse]

theorem parseIntString_toString_nat (n : Nat) :
    parseIntString (toString n) = roundF64 false n 1 :=
  (parseIntString_digits n).1

theorem parseIntString_toString_int (s : Int) :
    parseIntString (toString s) = roundF64 (decide (s < 0)) s.natAbs 1 := by
  cases s with
  | ofNat m =>
    have : ¬ (Int.ofNat m < 0) := by simp
    simpa [this] using (parseIntString_digits m).1
  | negSucc m =>
    have : (Int.negSucc m < 0) := Int.negSucc_lt_zero m
    simpa [this] using (parseIntString_digits (m + 1)).2

/-! ## The displayed figures -/

theorem floorLog2_one (n : Nat) (hn : 0 < n) : floorLog2 n 1 = (ilog2 n : Int) := by
  have h1 : ilog2 1 = 0 := by decide
  have h2 := (ilog2_spec n hn).1
  simp [floorLog2, h1, pow2Le, h2]

theorem strictEq_one_of_pos_exp (neg : Bool) (m : Nat) (e : Int) (he : 1 ≤ e) :
    JSNum.strictEq (.fin neg m e) (JSNum.int 1) = false := by
  have h1 : min e 0 = 0 := by omega
  have h2 : e.toNat = (e - 1).toNat + 1 := by omega
  have h3 : ¬ (m * 2 ^ e.toNat = 1) := by
    rw [h2, pow_succ]
    intro h
    have : (2 : Nat) ∣ 1 := ⟨m * 2 ^ (e - 1).toNat, by rw [← h]; ring⟩
    omega
  simp only [JSNum.strictEq, JSNum.int, h1, sub_zero, Int.toNat_zero, pow_zero, mul_one]
  rw [decide_eq_false h3]
  rfl

/-- The two outcomes of rounding a non-zero quotient: an infinity, or a
finite Number at the exponent chosen for the quotient. -/
theorem roundF64_cases (neg : Bool) (n d : Nat) (hn : n ≠ 0) :
    roundF64 neg n d = .inf neg ∨
      ∃ m, roundF64 neg n d = .fin neg m (max (floorLog2 n d - 52) (-1074)) := by
  unfold roundF64
  rw [if_neg hn]
  simp only []
  by_cases h : 1024 ≤ (ilog2 (if 0 ≤ max (floorLog2 n d - 52) (-1074)
      then rneDiv n (d * 2 ^ (max (floorLog2 n d - 52) (-1074)).toNat)
      else rneDiv (n * 2 ^ (-(max (floorLog2 n d - 52) (-1074))).toNat) d) : Int)
      + max (floorLog2 n d - 52) (-1074)
  · rw [if_pos h]
    exact Or.inl rfl
  · rw [if_neg h]
    exact Or.inr ⟨_, rfl⟩

theorem strictEq_one_of_scaled (neg : Bool) (n t : Nat) :
    JSNum.strictEq (.fin neg (n * 2 ^ t) (-(t : Int))) (JSNum.int 1) = (decide (n = 1) && !neg) := by
  have h1 : min (-(t : Int)) 0 = -(t : Int) := by omega
  have h2 : (-(t : Int) - -(t : Int)).toNat = 0 := by omega
  have h3 : ((0 : Int) - -(t : Int)).toNat = t := by omega
  have hpos : 0 < 2 ^ t := by positivity
  simp only [JSNum.strictEq, JSNum.int, h1, h2, h3, pow_zero, mul_one, one_mul]
  by_cases hn : n = 1
  · subst hn
    have : ¬ (2 ^ t = 0) := by omega
    cases neg <;> simp [this]
  · have : ¬ (n * 2 ^ t = 2 ^ t) := by
      intro h
      have : n * 2 ^ t = 1 * 2 ^ t := by omega
      exact hn (Nat.eq_of_mul_eq_mul_right hpos this)
    simp [this, hn]

/-- The comparison `marketState === 1` on the parse of an integer string. -/
theorem strictEq_parse_one (s : Int) :
    JSNum.strictEq (parseIntString (toString s)) (JSNum.int 1) = decide (s = 1) := by
  rw [parseIntString_toString_int]
  rcases Nat.eq_zero_or_pos s.natAbs with h0 | h0
  · have hs : s = 0 := by omega
    subst hs
    decide
  · by_cases hlt : s.natAbs < 2 ^ 53
    · obtain ⟨t, -, ht⟩ := roundF64_shape (decide (s < 0)) s.natAbs 1 53 h0 (by norm_num)
        (by omega) le_rfl
      rw [ht, rneDiv_one, strictEq_one_of_scaled]
      by_cases h1 : s = 1
      · subst h1; decide
      · have : ¬ (s.natAbs = 1 ∧ ¬ s < 0) := by omega
        by_cases h2 : s.natAbs = 1 <;> by_cases h3 : s < 0 <;> simp_all
    · have hge : 2 ^ 53 ≤ s.natAbs := by omega
      have hlog : 53 ≤ ilog2 s.natAbs := by
        have := (ilog2_spec s.natAbs h0).2
        have h' : 2 ^ 53 < 2 ^ (ilog2 s.natAbs + 1) := lt_of_le_of_lt hge this
        have := (Nat.pow_lt_pow_iff_right (by norm_num)).mp h'
        omega
      have hs1 : ¬ s = 1 := by
        intro h
        subst h
        norm_num at hge
      rcases roundF64_cases (decide (s < 0)) s.natAbs 1 (by omega) with h | ⟨m, h⟩
      · rw [h]
        simp [JSNum.strictEq, JSNum.int, hs1]
      · rw [h, floorLog2_one _ h0, strictEq_one_of_pos_exp _ _ _ (by omega)]
        simp [hs1]

/-- The quotient `yes / 1e9` of an integer below `2^53`, as a rounding. -/
theorem div_1e9_shape (y : Nat) (hy : y < 2 ^ 53) (h0 : 0 < y) :
    ∃ s : Nat, 29 ≤ s ∧
      JSNum.div (roundF64 false y 1) (JSNum.int (10 ^ 9)) =
        .fin false (rneDiv (y * 2 ^ s) (10 ^ 9)) (-(s : Int)) := by
  obtain ⟨t, -, ht⟩ := roundF64_shape false y 1 53 h0 (by norm_num) (by omega) le_rfl
  rw [ht, rneDiv_one]
  have hdiv : JSNum.div (.fin false (y * 2 ^ t) (-(t : Int))) (JSNum.int (10 ^ 9)) =
      roundF64 false (2 ^ t * y) (2 ^ t * 10 ^ 9) := by
    by_cases h : (0 : Int) ≤ -(t : Int) - 0
    · have ht0 : t = 0 := by omega
      subst ht0
      simp [JSNum.div, JSNum.int]
    · have h2 : (-(-(t : Int) - 0)).toNat = t := by omega
      simp only [JSNum.div, JSNum.int, if_neg h, h2, Bool.xor_false]
      rw [if_neg (by norm_num)]
      congr 1 <;> ring
  have hpos : 0 < 2 ^ t := by positivity
  obtain ⟨s, hs, hr⟩ := roundF64_shape false (2 ^ t * y) (2 ^ t * 10 ^ 9) 24
    (Nat.mul_pos hpos h0) (by positivity)
    (by
      have : y < 10 ^ 9 * 2 ^ 24 := by norm_num at hy ⊢; omega
      calc 2 ^ t * y < 2 ^ t * (10 ^ 9 * 2 ^ 24) := Nat.mul_lt_mul_of_pos_left this hpos
        _ = 2 ^ t * 10 ^ 9 * 2 ^ 24 := by ring)
    (by norm_num)
  refine ⟨s, by omega, ?_⟩
  rw [hdiv, hr, Nat.mul_assoc, rneDiv_scale _ _ _ hpos]

/-- The integer `toFixed(2)` prints for a Number nearest to `y / 10^9` is a
nearest integer to `y / 10^7`. -/
theorem roundHundredths_nearest (y s : Nat) (hs : 29 ≤ s) :
    2 * (roundHundredths (rneDiv (y * 2 ^ s) (10 ^ 9)) (-(s : Int)) * 10 ^ 7) ≤ 2 * y + 10 ^ 7 ∧
    2 * y ≤ 2 * (roundHundredths (rneDiv (y * 2 ^ s) (10 ^ 9)) (-(s : Int)) * 10 ^ 7) + 10 ^ 7 := by
  have hneg : ¬ (0 : Int) ≤ -(s : Int) := by omega
  have h2 : (-(-(s : Int))).toNat = s := by omega
  have hP : 2 ^ 29 ≤ 2 ^ s := Nat.pow_le_pow_right (by norm_num) hs
  have hpos : 0 < 2 ^ (s + 1) := by positivity
  obtain ⟨e1, e2⟩ := rneDiv_err (y * 2 ^ s) (10 ^ 9) (by norm_num)
  simp only [roundHundredths, if_neg hneg, h2]
  generalize rneDiv (y * 2 ^ s) (10 ^ 9) = r at e1 e2 ⊢
  have c1 := Nat.div_mul_le_self (200 * r + 2 ^ s) (2 ^ (s + 1))
  have c2 := @Nat.lt_div_mul_add (200 * r + 2 ^ s) (2 ^ (s + 1)) hpos
  generalize (200 * r + 2 ^ s) / 2 ^ (s + 1) = c at c1 c2 ⊢
  rw [pow_succ] at c1 c2
  generalize 2 ^ s = P at hP c1 c2 e1 e2
  norm_num at hP e1 e2 ⊢
  constructor
  · have key : P * (2 * (c * 10000000)) < P * (2 * y + 10000000 + 2) := by nlinarith
    have := Nat.lt_of_mul_lt_mul_left key
    omega
  · have key : P * (2 * y + 10000000) < P * (2 * (c * 10000000) + 20000000 + 2) := by nlinarith
    have := Nat.lt_of_mul_lt_mul_left key
    omega

/-- The string `toFixed(2)` builds is the integer part, a point and two
digits. -/
theorem fixedDigits_eq (c : Nat) : fixedDigits c = twoDecimals c := by
  have hrepr : ∀ n : Nat, (toString n).toList = Nat.toDigits 10 n := fun n => rfl
  unfold fixedDigits twoDecimals
  simp only [hrepr]
  apply String.ext
  simp only [String.data_append, hrepr]
  have hd : ∀ n : Nat, (toString n).data = Nat.toDigits 10 n := fun n => rfl
  rw [hd]
  by_cases h1 : c < 10
  · have e1 : c / 100 = 0 := by omega
    have e2 : c / 10 % 10 = 0 := by omega
    have e3 : c % 10 = c := by omega
    rw [toDigits_of_lt c h1, e1, e2, e3, toDigits_of_lt 0 (by norm_num)]
    rfl
  · have h10 : c % 10 < 10 := Nat.mod_lt _ (by norm_num)
    by_cases h2 : c < 100
    · have e1 : c / 100 = 0 := by omega
      have e2 : c / 10 % 10 = c / 10 := by omega
      rw [toDigits_of_ge c (by omega), toDigits_of_lt (c / 10) (by omega), e1, e2,
        toDigits_of_lt 0 (by norm_num)]
      rfl
    · have e1 : c / 10 / 10 = c / 100 := by omega
      rw [toDigits_of_ge c (by omega), toDigits_of_ge (c / 10) (by omega), e1]
      have hlen : 0 < (Nat.toDigits 10 (c / 100)).length :=
        List.length_pos.mpr (toDigits_ne_nil _)
      generalize Nat.toDigits 10 (c / 100) = ds at hlen
      have e4 : 3 - (ds ++ [Nat.digitChar (c / 10 % 10)] ++ [Nat.digitChar (c % 10)]).length
          = 0 := by
        simp only [List.length_append, List.length_singleton]
        omega
      have e5 : (ds ++ [Nat.digitChar (c / 10 % 10)] ++ [Nat.digitChar (c % 10)]).length - 2
          = ds.length := by
        simp only [List.length_append, List.length_singleton]
        omega
      simp only [e4, List.replicate_zero, List.nil_append, e5]
      simp [List.take_append_eq_append_take, List.drop_append_eq_append_drop]

/-- The text `toFixed(2)` gives for `yes / 1e9` when `yes` is the parse of
an integer below `2^53`. -/
theorem toFixed2_div_1e9 (rt : Runtime) (y : Nat) (hy : y < 2 ^ 53) :
    ∃ c : Nat, NearestHundredth c y ∧
      toFixed2 rt (JSNum.div (roundF64 false y 1) (JSNum.int (10 ^ 9))) = twoDecimals c := by
  rcases Nat.eq_zero_or_pos y with h0 | h0
  · subst h0
    refine ⟨0, by simp [NearestHundredth], ?_⟩
    rw [← fixedDigits_eq]
    simp [roundF64, JSNum.div, JSNum.int, toFixed2, atLeast1e21, roundHundredths]
  · obtain ⟨s, hs, hdiv⟩ := div_1e9_shape y hy h0
    refine ⟨roundHundredths (rneDiv (y * 2 ^ s) (10 ^ 9)) (-(s : Int)),
      roundHundredths_nearest y s hs, ?_⟩
    rw [hdiv, ← fixedDigits_eq]
    have hneg : ¬ (0 : Int) ≤ -(s : Int) := by omega
    have h2 : (-(-(s : Int))).toNat = s := by omega
    have hsmall : ¬ (10 ^ 21 * 2 ^ s ≤ rneDiv (y * 2 ^ s) (10 ^ 9)) := by
      obtain ⟨e1, -⟩ := rneDiv_err (y * 2 ^ s) (10 ^ 9) (by norm_num)
      have hpos : 0 < 2 ^ s := by positivity
      have h3 : y * 2 ^ s ≤ 2 ^ 53 * 2 ^ s := Nat.mul_le_mul_right _ hy.le
      intro hcon
      have h4 : 10 ^ 21 * 2 ^ s * 10 ^ 9 ≤ rneDiv (y * 2 ^ s) (10 ^ 9) * 10 ^ 9 :=
        Nat.mul_le_mul_right _ hcon
      generalize rneDiv (y * 2 ^ s) (10 ^ 9) = r at e1 h4
      generalize 2 ^ s = P at hpos h3 e1 h4
      norm_num at h3 e1 h4
      omega
    simp only [toFixed2, atLeast1e21, if_neg hneg, h2, decide_eq_false hsmall,
      Bool.false_eq_true, if_false]
    simp

/-! ## Sequencing lemmas -/

@[simp]
theorem JS.bind_eq {α β : Type} (x : JS α) (f : α → JS β) : (x >>= f) = JS.seq x f := rfl

@[simp]
theorem JS.pure_eq {α : Type} (a : α) : (pure a : JS α) = JS.ret a := rfl

theorem totalsUrl_ne_stateUrl : totalsUrl ≠ stateUrl := by decide

theorem stateUrl_ne_totalsUrl : stateUrl ≠ totalsUrl := by decide

theorem refreshCount_nil : refreshCount [] = 0 := rfl

theorem refreshCount_cons (c : Call) (cs : List Call) :
    refreshCount (c :: cs) = refreshCount cs + (if c = Call.fetch totalsUrl then 1 else 0) := by
  simp [refreshCount, List.count_cons]

theorem refreshCount_append (cs ds : List Call) :
    refreshCount (cs ++ ds) = refreshCount cs + refreshCount ds := by
  simp [refreshCount]

theorem sentRequests_append (cs ds : List Call) :
    sentRequests (cs ++ ds) = sentRequests cs ++ sentRequests ds := by
  simp [sentRequests]

theorem JS.quiet_ret {α : Type} (a : α) : (JS.ret a).Quiet :=
  fun _ => ⟨rfl, rfl, rfl, rfl, rfl, rfl⟩

theorem JS.quiet_lift {α : Type} (r : Except JSError α) : (JS.lift r).Quiet :=
  fun _ => ⟨rfl, rfl, rfl, rfl, rfl, rfl⟩

theorem JS.quiet_throw {α : Type} (err : JSError) : (JS.throw err : JS α).Quiet :=
  fun _ => ⟨rfl, rfl, rfl, rfl, rfl, rfl⟩

theorem JS.quiet_setDom {f : Dom → Dom} (hf : PoolWrite f) : (JS.setDom f).Quiet :=
  fun p => ⟨rfl, rfl, (hf p.dom).1, (hf p.dom).2.1, (hf p.dom).2.2.1, (hf p.dom).2.2.2⟩

theorem JS.quiet_seq {α β : Type} {x : JS α} {f : α → JS β} (hx : x.Quiet)
    (hf : ∀ a, (f a).Quiet) : (JS.seq x f).Quiet := by
  intro p
  unfold JS.seq
  rcases h : x p with ⟨p', a | a⟩
  · have := hx p
    rw [h] at this
    simpa using this
  · have h1 := hx p
    rw [h] at h1
    have h2 := hf a p'
    simp only at h1 ⊢
    exact ⟨h2.1.trans h1.1, h2.2.1.trans h1.2.1, h2.2.2.1.trans h1.2.2.1,
      h2.2.2.2.1.trans h1.2.2.2.1, h2.2.2.2.2.1.trans h1.2.2.2.2.1,
      h2.2.2.2.2.2.trans h1.2.2.2.2.2⟩

theorem JS.quiet_ite {α : Type} {c : Prop} [Decidable c] {x y : JS α} (hx : x.Quiet)
    (hy : y.Quiet) : (if c then x else y).Quiet := by
  split
  · exact hx
  · exact hy

/-- The shape of `updatePools`: the two fetches, then a remainder that makes
no call and throws when a response is not ok, all under the `catch`. -/
theorem updatePools_shape (rt : Runtime) (w : World) :
    ∃ rest : Response → Response → JS Unit,
      (∀ r1 r2, (rest r1 r2).Quiet) ∧
      (∀ r1 r2, r1.ok = false ∨ r2.ok = false →
        rest r1 r2 = JS.throw .failedToFetchContractState) ∧
      updatePools rt w =
        JS.tryCatch
          (JS.seq (fetch w totalsUrl) fun r1 => JS.seq (fetch w stateUrl) fun r2 => rest r1 r2)
          (fun err => JS.call (.consoleError "Unable to update pools:" err)) := by
  refine ⟨fun totalsRes stateRes =>
      if (!totalsRes.ok || !stateRes.ok) = true then
        JS.throw .failedToFetchContractState
      else
        JS.seq (JS.lift totalsRes.json) fun totalsData =>
        JS.seq (JS.lift stateRes.json) fun stateData =>
        JS.seq (JS.lift ((getOutput totalsData).bind (getIndex 0) |>.bind (parseInt rt))) fun yes =>
        JS.seq (JS.lift ((getOutput totalsData).bind (getIndex 1) |>.bind (parseInt rt))) fun no =>
        JS.seq (JS.lift ((getOutput stateData).bind (getIndex 0) |>.bind (parseInt rt)))
          fun marketState =>
        JS.seq (JS.lift ((getOutput stateData).bind (getIndex 1) |>.bind (parseInt rt)))
          fun _outcome =>
        JS.seq (JS.setDom fun d =>
          { d with yesPool := toFixed2 rt (JSNum.div yes (JSNum.int (10 ^ 9))) ++ " TON" })
          fun _ =>
        JS.seq (JS.setDom fun d =>
          { d with noPool := toFixed2 rt (JSNum.div no (JSNum.int (10 ^ 9))) ++ " TON" })
          fun _ =>
        if JSNum.strictEq marketState (JSNum.int 1) then
          JS.setDom fun d => { d with claimSectionHidden := false }
        else
          JS.setDom fun d => { d with claimSectionHidden := true }, ?_, ?_, rfl⟩
  · intro r1 r2
    have hw : ∀ f : Dom → Dom, (∀ d, (f d).yesBtnDisabled = d.yesBtnDisabled ∧
        (f d).noBtnDisabled = d.noBtnDisabled ∧ (f d).claimBtnDisabled = d.claimBtnDisabled ∧
        (f d).style = d.style) → (JS.setDom f).Quiet := fun f hf => JS.quiet_setDom hf
    refine JS.quiet_ite (JS.quiet_throw _) ?_
    refine JS.quiet_seq (JS.quiet_lift _) fun _ => ?_
    refine JS.quiet_seq (JS.quiet_lift _) fun _ => ?_
    refine JS.quiet_seq (JS.quiet_lift _) fun _ => ?_
    refine JS.quiet_seq (JS.quiet_lift _) fun _ => ?_
    refine JS.quiet_seq (JS.quiet_lift _) fun _ => ?_
    refine JS.quiet_seq (JS.quiet_lift _) fun _ => ?_
    refine JS.quiet_seq (hw _ fun _ => ⟨rfl, rfl, rfl, rfl⟩) fun _ => ?_
    refine JS.quiet_seq (hw _ fun _ => ⟨rfl, rfl, rfl, rfl⟩) fun _ => ?_
    exact JS.quiet_ite (hw _ fun _ => ⟨rfl, rfl, rfl, rfl⟩) (hw _ fun _ => ⟨rfl, rfl, rfl, rfl⟩)
  · intro r1 r2 h
    have : (!r1.ok || !r2.ok) = true := by
      rcases h with h | h <;> simp [h]
    simp [this]

/-- What one run of `updatePools` does to the page besides the pool texts
and the claim section: it resolves, the flag `connected`, the buttons and
the style are untouched, and the calls made are one `fetch` of `getTotals`
followed by calls that are neither a refresh nor a transaction request. -/
theorem updatePools_frame (rt : Runtime) (w : World) (p : Page) :
    (updatePools rt w p).2 = .ok () ∧
    (updatePools rt w p).1.connected = p.connected ∧
    ((updatePools rt w p).1.dom.yesBtnDisabled = p.dom.yesBtnDisabled ∧
      (updatePools rt w p).1.dom.noBtnDisabled = p.dom.noBtnDisabled ∧
      (updatePools rt w p).1.dom.claimBtnDisabled = p.dom.claimBtnDisabled ∧
      (updatePools rt w p).1.dom.style = p.dom.style) ∧
    (∃ extra, (updatePools rt w p).1.calls = p.calls ++ Call.fetch totalsUrl :: extra ∧
      refreshCount extra = 0 ∧ sentRequests extra = []) := by
  obtain ⟨rest, hq, -, heq⟩ := updatePools_shape rt w
  rw [heq]
  have hne := stateUrl_ne_totalsUrl
  simp only [JS.tryCatch, JS.seq, fetch, JS.bind_eq, JS.call, JS.lift]
  cases h1 : w.fetch totalsUrl with
  | error e => simp [refreshCount_nil, refreshCount_cons, sentRequests]
  | ok r1 =>
    cases h2 : w.fetch stateUrl with
    | error e => simp [refreshCount_cons, refreshCount_nil, sentRequests, hne]
    | ok r2 =>
      simp only []
      have hr := hq r1 r2
        { connected := p.connected, dom := p.dom,
          calls := p.calls ++ [Call.fetch totalsUrl] ++ [Call.fetch stateUrl] }
      rcases hb : rest r1 r2
        { connected := p.connected, dom := p.dom,
          calls := p.calls ++ [Call.fetch totalsUrl] ++ [Call.fetch stateUrl] } with ⟨p', a | a⟩
      · rw [hb] at hr
        simp only at hr ⊢
        refine ⟨trivial, hr.2.1, hr.2.2,
          [Call.fetch stateUrl, Call.consoleError "Unable to update pools:" a], ?_, ?_, ?_⟩
        · rw [hr.1]; simp
        · simp [refreshCount_cons, refreshCount_nil, hne]
        · simp [sentRequests]
      · rw [hb] at hr
        simp only at hr ⊢
        refine ⟨trivial, hr.2.1, hr.2.2, [Call.fetch stateUrl], ?_, ?_, ?_⟩
        · rw [hr.1]; simp
        · simp [refreshCount_cons, refreshCount_nil, hne]
        · simp [sentRequests]

/-- When both requests are answered and a response is not ok, `updatePools`
leaves the document as it was. -/
theorem updatePools_dom_of_not_ok (rt : Runtime) (w : World) (p : Page) (r1 r2 : Response)
    (h1 : w.fetch totalsUrl = .ok r1) (h2 : w.fetch stateUrl = .ok r2)
    (h : r1.ok = false ∨ r2.ok = false) : (updatePools rt w p).1.dom = p.dom := by
  obtain ⟨rest, -, hthrow, heq⟩ := updatePools_shape rt w
  rw [heq]
  simp only [JS.tryCatch, JS.seq, fetch, JS.bind_eq, JS.call, JS.lift, h1, h2, hthrow r1 r2 h,
    JS.throw]

theorem JS.tryCatch_of_ok {α : Type} (x : JS α) (h : JSError → JS α) (p : Page) (a : α)
    (hx : (x p).2 = .ok a) : JS.tryCatch x h p = x p := by
  unfold JS.tryCatch
  rcases hr : x p with ⟨p', r | r⟩
  · rw [hr] at hx; cases hx
  · rfl

set_option maxRecDepth 4000 in
theorem toNanoString_default : toNanoString DEFAULT_BET_AMOUNT = .ok "200000000" := by decide

/-- The run of `placeBet` once the payload is built: the request is handed
over, then the refresh runs, or the rejection is logged. -/
theorem placeBet_eq (rt : Runtime) (w : World) (op : Nat) (p : Page) (payload : String)
    (h : buildPayload rt op = .ok payload) :
    placeBet rt w op p =
      match w.sendTransaction with
      | .ok _ =>
        updatePools rt w
          { p with calls := p.calls ++ [Call.sendTransaction
            { validUntil := validUntil w
              messages := [{ address := CONTRACT_ADDRESS, amount := "200000000",
                             payload := payload }] }] }
      | .error err =>
        ({ p with calls := p.calls ++ [Call.sendTransaction
            { validUntil := validUntil w
              messages := [{ address := CONTRACT_ADDRESS, amount := "200000000",
                             payload := payload }] }] ++ [Call.consoleError "Bet failed:" err] },
          .ok ()) := by
  unfold placeBet
  simp only [JS.bind_eq, JS.seq, JS.lift, h, toNanoString_default]
  cases hs : w.sendTransaction with
  | error err => simp [JS.tryCatch, JS.seq, JS.call, JS.lift]
  | ok u =>
    simp only []
    rw [JS.tryCatch_of_ok _ _ _ ()]
    · simp [JS.seq, JS.call, JS.lift]
    · simp only [JS.seq, JS.call, JS.lift]
      exact (updatePools_frame rt w _).1

/-- The run of `claimWinnings` once the payload is built. -/
theorem claimWinnings_eq (rt : Runtime) (w : World) (p : Page) (payload : String)
    (h : buildPayload rt 3 = .ok payload) :
    claimWinnings rt w p =
      match w.sendTransaction with
      | .ok _ =>
        updatePools rt w
          { p with calls := p.calls ++ [Call.sendTransaction
            { validUntil := validUntil w
              messages := [{ address := CONTRACT_ADDRESS, amount := "0",
                             payload := payload }] }] }
      | .error err =>
        ({ p with calls := p.calls ++ [Call.sendTransaction
            { validUntil := validUntil w
              messages := [{ address := CONTRACT_ADDRESS, amount := "0",
                             payload := payload }] }] ++ [Call.consoleError "Claim failed:" err] },
          .ok ()) := by
  unfold claimWinnings
  simp only [JS.bind_eq, JS.seq, JS.lift, h]
  cases hs : w.sendTransaction with
  | error err => simp [JS.tryCatch, JS.seq, JS.call, JS.lift]
  | ok u =>
    simp only []
    rw [JS.tryCatch_of_ok _ _ _ ()]
    · simp [JS.seq, JS.call, JS.lift]
    · simp only [JS.seq, JS.call, JS.lift]
      exact (updatePools_frame rt w _).1

/-- A submission whose request is `tx`: what it adds to the calls, and that
it resolves and leaves `connected` and the buttons alone. -/
theorem submission_calls (rt : Runtime) (w : World) (p : Page) (tx : TxRequest)
    (label : String) (x : JS Unit)
    (hx : x p =
      match w.sendTransaction with
      | .ok _ => updatePools rt w { p with calls := p.calls ++ [Call.sendTransaction tx] }
      | .error err =>
        ({ p with calls := p.calls ++ [Call.sendTransaction tx] ++
            [Call.consoleError label err] }, .ok ())) :
    (x p).2 = .ok () ∧ (x p).1.connected = p.connected ∧
    ((x p).1.dom.yesBtnDisabled = p.dom.yesBtnDisabled ∧
      (x p).1.dom.noBtnDisabled = p.dom.noBtnDisabled ∧
      (x p).1.dom.claimBtnDisabled = p.dom.claimBtnDisabled) ∧
    sentRequests (x p).1.calls = sentRequests p.calls ++ [tx] ∧
    refreshCount (x p).1.calls =
      refreshCount p.calls + (if w.sendTransaction = .ok () then 1 else 0) := by
  rw [hx]
  cases hs : w.sendTransaction with
  | error err =>
    simp [sentRequests_append, refreshCount_append, refreshCount_cons, refreshCount_nil,
      sentRequests]
  | ok u =>
    obtain ⟨h1, h2, ⟨h3, h4, h5, -⟩, extra, h6, h7, h8⟩ :=
      updatePools_frame rt w { p with calls := p.calls ++ [Call.sendTransaction tx] }
    simp only []
    refine ⟨h1, h2, ⟨h3, h4, h5⟩, ?_, ?_⟩
    · rw [h6]
      have : Call.fetch totalsUrl :: extra = [Call.fetch totalsUrl] ++ extra := rfl
      rw [this, sentRequests_append, sentRequests_append, sentRequests_append, h8]
      simp [sentRequests]
    · rw [h6]
      have : Call.fetch totalsUrl :: extra = [Call.fetch totalsUrl] ++ extra := rfl
      rw [this, refreshCount_append, refreshCount_append, refreshCount_append, h7]
      simp [refreshCount_cons, refreshCount_nil]

/-- The callback of `onStatusChange` on `null`: the flag and the buttons
are set, nothing else happens. -/
theorem onStatusChange_none (rt : Runtime) (w : World) (p : Page) :
    onStatusChange rt w none p =
      ({ p with
          connected := false
          dom := { p.dom with
            yesBtnDisabled := true, noBtnDisabled := true, claimBtnDisabled := true } },
        .ok ()) := by
  simp [onStatusChange, JS.seq, toggleInteraction, JS.setDom, JS.ret]

/-- The callback of `onStatusChange` on a wallet: the flag and the buttons
are set, then the refresh runs. -/
theorem onStatusChange_some (rt : Runtime) (w : World) (wallet : Wallet) (p : Page) :
    onStatusChange rt w (some wallet) p =
      updatePools rt w
        { p with
          connected := true
          dom := { p.dom with
            yesBtnDisabled := false, noBtnDisabled := false, claimBtnDisabled := false } } := by
  simp [onStatusChange, JS.seq, toggleInteraction, JS.setDom]

/-- After a notification the flag `connected` and the three buttons follow
the descriptor, and one refresh was started exactly when it is non-null;
no transaction request is handed over. -/
theorem onStatusChange_effect (rt : Runtime) (w : World) (wallet : Option Wallet) (p : Page) :
    (onStatusChange rt w wallet p).1.connected = wallet.isSome ∧
    ((onStatusChange rt w wallet p).1.dom.yesBtnDisabled = !wallet.isSome ∧
      (onStatusChange rt w wallet p).1.dom.noBtnDisabled = !wallet.isSome ∧
      (onStatusChange rt w wallet p).1.dom.claimBtnDisabled = !wallet.isSome) ∧
    refreshCount (onStatusChange rt w wallet p).1.calls =
      refreshCount p.calls + (if wallet.isSome then 1 else 0) ∧
    sentRequests (onStatusChange rt w wallet p).1.calls = sentRequests p.calls := by
  cases wallet with
  | none => simp [onStatusChange_none]
  | some wallet =>
    rw [onStatusChange_some]
    obtain ⟨-, h2, ⟨h3, h4, h5, -⟩, extra, h6, h7, h8⟩ :=
      updatePools_frame rt w
        { p with
          connected := true
          dom := { p.dom with
            yesBtnDisabled := false, noBtnDisabled := false, claimBtnDisabled := false } }
    have hcons : Call.fetch totalsUrl :: extra = [Call.fetch totalsUrl] ++ extra := rfl
    refine ⟨by simpa using h2, ⟨by simpa using h3, by simpa using h4, by simpa using h5⟩, ?_, ?_⟩
    · rw [h6, hcons, refreshCount_append, refreshCount_append, h7]
      simp [refreshCount_cons, refreshCount_nil]
    · rw [h6, hcons, sentRequests_append, sentRequests_append, h8]
      simp [sentRequests]

/-- The page after load: not connected, the three buttons disabled, no
call made yet. -/
theorem pageLoad_state (telegram : Option (Option ThemeParams × String)) (html : Dom) :
    (pageLoad telegram html).connected = false ∧
    (pageLoad telegram html).dom.yesBtnDisabled = true ∧
    (pageLoad telegram html).dom.noBtnDisabled = true ∧
    (pageLoad telegram html).dom.claimBtnDisabled = true ∧
    (pageLoad telegram html).calls = [] := by
  rcases telegram with _ | ⟨_ | params, scheme⟩ <;>
    simp [pageLoad, toggleInteraction, JS.setDom, applyTheme, JS.ret, JS.seq, setProperty]

/-- Claim C4. When both indexer requests are answered and at least one of the
two responses is not ok, `updatePools` leaves the yes-pool text, the no-pool
text and the visibility of the claim section as they were, whatever the
other response and the bodies are. -/
theorem updatePools_not_ok_leaves_display (rt : Runtime) (w : World) (p : Page)
    (totalsRes stateRes : Response) (h1 : w.fetch totalsUrl = .ok totalsRes)
    (h2 : w.fetch stateUrl = .ok stateRes) (h : totalsRes.ok = false ∨ stateRes.ok = false) :
    (updatePools rt w p).1.dom.yesPool = p.dom.yesPool ∧
    (updatePools rt w p).1.dom.noPool = p.dom.noPool ∧
    (updatePools rt w p).1.dom.claimSectionHidden = p.dom.claimSectionHidden := by
  rw [updatePools_dom_of_not_ok rt w p totalsRes stateRes h1 h2 h]
  exact ⟨rfl, rfl, rfl⟩

/-- The theorem of C4 at a world whose `getState` response is not ok. -/
theorem updatePools_not_ok_leaves_display_witness :
    (updatePools sampleRuntime failingWorld (pageLoad none sampleDom)).1.dom.yesPool = "-" ∧
    (updatePools sampleRuntime failingWorld (pageLoad none sampleDom)).1.dom.noPool = "-" ∧
    (updatePools sampleRuntime failingWorld (pageLoad none sampleDom)).1.dom.claimSectionHidden
      = true :=
  updatePools_not_ok_leaves_display sampleRuntime failingWorld (pageLoad none sampleDom)
    { ok := true, json := .ok (outputBody ["200000000000", "100000000000"]) }
    { ok := false, json := .ok (outputBody ["1", "1"]) } rfl rfl (Or.inr rfl)

/-- Claim C5. Once the payload is built, so that the request reaches the
wallet widget: when `sendTransaction` resolves, `placeBet(op)` and
`claimWinnings()` each start exactly one refresh; when it rejects they start
none, and the submission still resolves. -/
theorem submission_refresh_on_resolve_only (rt : Runtime) (w : World) (op : Nat) (p : Page)
    (payload payload3 : String) (hb : buildPayload rt op = .ok payload)
    (hc : buildPayload rt 3 = .ok payload3) :
    (w.sendTransaction = .ok () →
      refreshCount (placeBet rt w op p).1.calls = refreshCount p.calls + 1 ∧
      refreshCount (claimWinnings rt w p).1.calls = refreshCount p.calls + 1) ∧
    (∀ err, w.sendTransaction = .error err →
      refreshCount (placeBet rt w op p).1.calls = refreshCount p.calls ∧
      (placeBet rt w op p).2 = .ok () ∧
      refreshCount (claimWinnings rt w p).1.calls = refreshCount p.calls ∧
      (claimWinnings rt w p).2 = .ok ()) := by
  obtain ⟨b1, -, -, -, b2⟩ :=
    submission_calls rt w p _ "Bet failed:" (placeBet rt w op) (placeBet_eq rt w op p payload hb)
  obtain ⟨c1, -, -, -, c2⟩ :=
    submission_calls rt w p _ "Claim failed:" (claimWinnings rt w)
      (claimWinnings_eq rt w p payload3 hc)
  constructor
  · intro hs
    rw [b2, c2, hs]
    simp
  · intro err hs
    rw [b2, c2, hs]
    simp [b1, c1]

/-- The theorem of C5 at an approving and at a rejecting wallet widget. -/
theorem submission_refresh_on_resolve_only_witness :
    (refreshCount (placeBet sampleRuntime sampleWorld 0 (pageLoad none sampleDom)).1.calls
        = refreshCount (pageLoad none sampleDom).calls + 1 ∧
      refreshCount (claimWinnings sampleRuntime sampleWorld (pageLoad none sampleDom)).1.calls
        = refreshCount (pageLoad none sampleDom).calls + 1) ∧
    (refreshCount (placeBet sampleRuntime rejectingWorld 0 (pageLoad none sampleDom)).1.calls
        = refreshCount (pageLoad none sampleDom).calls ∧
      (placeBet sampleRuntime rejectingWorld 0 (pageLoad none sampleDom)).2 = .ok () ∧
      refreshCount (claimWinnings sampleRuntime rejectingWorld (pageLoad none sampleDom)).1.calls
        = refreshCount (pageLoad none sampleDom).calls ∧
      (claimWinnings sampleRuntime rejectingWorld (pageLoad none sampleDom)).2 = .ok ()) :=
  ⟨(submission_refresh_on_resolve_only sampleRuntime sampleWorld 0 (pageLoad none sampleDom)
      "boc0" "boc3" rfl rfl).1 rfl,
    (submission_refresh_on_resolve_only sampleRuntime rejectingWorld 0 (pageLoad none sampleDom)
      "boc0" "boc3" rfl rfl).2 JSError.walletRejected rfl⟩

/-- Claim C8. Whatever the two indexer requests do (a fetch that rejects, a
response that is not ok, a body that is not JSON, a body without `output`
or with an `output` that is not an array, or well-formed data),
`updatePools` resolves: it never rejects. -/
theorem updatePools_never_rejects (rt : Runtime) (w : World) (p : Page) :
    (updatePools rt w p).2 = .ok () :=
  (updatePools_frame rt w p).1

theorem run_nil (rt : Runtime) (p : Page) : run rt [] p = p := rfl

theorem run_cons (rt : Runtime) (ew : Event × World) (evs : List (Event × World)) (p : Page) :
    run rt (ew :: evs) p = run rt evs (step rt p ew) := rfl

theorem step_statusChange (rt : Runtime) (w : World) (wallet : Option Wallet) (p : Page) :
    step rt p (Event.statusChange wallet, w) = (onStatusChange rt w wallet p).1 := rfl

/-- The states after each notification of a sequence, from any page. -/
theorem runStates_notifications (rt : Runtime) (ws : List (Option Wallet × World)) (p : Page) :
    (runStates rt (notifications ws) p).map
        (fun q => (q.connected, controlsEnabled q, controlsDisabled q)) =
      ws.map (fun ww => (ww.1.isSome, ww.1.isSome, !ww.1.isSome)) := by
  induction ws generalizing p with
  | nil => rfl
  | cons ww ws ih =>
    obtain ⟨h1, ⟨h2, h3, h4⟩, -, -⟩ := onStatusChange_effect rt ww.2 ww.1 p
    simp only [notifications, List.map_cons, runStates] at ih ⊢
    rw [ih]
    simp [step, handle, controlsEnabled, controlsDisabled, h1, h2, h3, h4]

/-- The refreshes started by a sequence of notifications, from any page. -/
theorem refreshCount_notifications (rt : Runtime) (ws : List (Option Wallet × World))
    (p : Page) :
    refreshCount (run rt (notifications ws) p).calls =
      refreshCount p.calls + (ws.filter fun ww => ww.1.isSome).length := by
  induction ws generalizing p with
  | nil => rfl
  | cons ww ws ih =>
    obtain ⟨-, -, h, -⟩ := onStatusChange_effect rt ww.2 ww.1 p
    simp only [notifications, List.map_cons, run_cons, step_statusChange] at ih ⊢
    rw [ih, h]
    cases hw : ww.1.isSome
    · simp [List.filter_cons, hw]
    · simp [List.filter_cons, hw]
      omega

/-- Claim C6. After load the three action controls are disabled and the page
is not connected; after each wallet notification of any sequence the flag
`connected` is true and all three controls are enabled when the descriptor
is non-null, and the flag is false and all three are disabled when it is
null.  The sequence `[null, wallet, null]` gives the control states
disabled, enabled, disabled. -/
theorem controls_follow_wallet (rt : Runtime) (telegram : Option (Option ThemeParams × String))
    (html : Dom) (ws : List (Option Wallet × World)) :
    (pageLoad telegram html).connected = false ∧
    controlsDisabled (pageLoad telegram html) = true ∧
    (runStates rt (notifications ws) (pageLoad telegram html)).map
        (fun q => (q.connected, controlsEnabled q, controlsDisabled q)) =
      ws.map (fun ww => (ww.1.isSome, ww.1.isSome, !ww.1.isSome)) ∧
    ∀ w1 w2 w3 : World,
      (runStates rt (notifications [(none, w1), (some { addr := "x" }, w2), (none, w3)])
        (pageLoad telegram html)).map controlsEnabled = [false, true, false] := by
  obtain ⟨h1, h2, h3, h4, -⟩ := pageLoad_state telegram html
  refine ⟨h1, by simp [controlsDisabled, h2, h3, h4], runStates_notifications rt ws _, ?_⟩
  intro w1 w2 w3
  have h := runStates_notifications rt [(none, w1), (some { addr := "x" }, w2), (none, w3)]
    (pageLoad telegram html)
  have h' := congrArg (List.map fun t : Bool × Bool × Bool => t.2.1) h
  simpa [List.map_map, Function.comp_def] using h'

/-- Claim C7 as stated fails. Two notifications with a wallet in a row enter
Connected once but start two refreshes. -/
theorem refresh_per_entry_counterexample :
    entriesToConnected false [some { addr := "x" }, some { addr := "x" }] = 1 ∧
    refreshCount
      (run sampleRuntime
        (notifications [(some { addr := "x" }, sampleWorld), (some { addr := "x" }, sampleWorld)])
        (pageLoad none sampleDom)).calls = 2 := by
  refine ⟨by decide, ?_⟩
  rw [refreshCount_notifications]
  rfl

/-- Claim C7, amended. Over every sequence of wallet notifications from the
loaded page, a refresh is started exactly once for each notification with a
non-null descriptor, whatever the state it is received in, and for no
notification with a null descriptor; the sequence `[null, wallet, null]`
starts exactly one refresh. -/
theorem refresh_once_per_wallet_notification (rt : Runtime)
    (telegram : Option (Option ThemeParams × String)) (html : Dom)
    (ws : List (Option Wallet × World)) :
    refreshCount (run rt (notifications ws) (pageLoad telegram html)).calls =
      (ws.filter fun ww => ww.1.isSome).length ∧
    (∀ (w : World) (wallet : Option Wallet) (p : Page),
      refreshCount (step rt p (Event.statusChange wallet, w)).calls =
        refreshCount p.calls + (if wallet.isSome then 1 else 0)) ∧
    ∀ w1 w2 w3 : World,
      refreshCount (run rt (notifications [(none, w1), (some { addr := "x" }, w2), (none, w3)])
        (pageLoad telegram html)).calls = 1 := by
  have h0 : refreshCount (pageLoad telegram html).calls = 0 := by
    rw [(pageLoad_state telegram html).2.2.2.2]; rfl
  refine ⟨?_, ?_, ?_⟩
  · rw [refreshCount_notifications, h0]; simp
  · intro w wallet p
    rw [step_statusChange]
    exact (onStatusChange_effect rt w wallet p).2.2.1
  · intro w1 w2 w3
    rw [refreshCount_notifications, h0]
    rfl

theorem applyTheme_calls (params : Option ThemeParams) (scheme : String) (p : Page) :
    (applyTheme params scheme p).1.calls = p.calls := by
  cases params <;> simp [applyTheme, JS.ret, JS.seq, setProperty, JS.setDom]

theorem placeBet_of_error (rt : Runtime) (w : World) (op : Nat) (p : Page) (err : JSError)
    (h : buildPayload rt op = .error err) : placeBet rt w op p = (p, .error err) := by
  simp [placeBet, JS.seq, JS.lift, h]

theorem claimWinnings_of_error (rt : Runtime) (w : World) (p : Page) (err : JSError)
    (h : buildPayload rt 3 = .error err) : claimWinnings rt w p = (p, .error err) := by
  simp [claimWinnings, JS.seq, JS.lift, h]

/-- The requests `placeBet(0)` and `placeBet(1)` add are good requests. -/
theorem placeBet_sent (rt : Runtime) (w : World) (op : Nat) (p : Page) (hop : op = 0 ∨ op = 1)
    (tx : TxRequest) (htx : tx ∈ sentRequests (placeBet rt w op p).1.calls) :
    tx ∈ sentRequests p.calls ∨ GoodRequest rt tx := by
  cases hb : buildPayload rt op with
  | error err =>
    rw [placeBet_of_error rt w op p err hb] at htx
    exact Or.inl htx
  | ok payload =>
    obtain ⟨-, -, -, h, -⟩ :=
      submission_calls rt w p _ "Bet failed:" (placeBet rt w op) (placeBet_eq rt w op p payload hb)
    rw [h, List.mem_append, List.mem_singleton] at htx
    rcases htx with htx | htx
    · exact Or.inl htx
    · right
      subst htx
      exact ⟨_, rfl, rfl, ⟨200000000, rfl⟩, Or.inl ⟨op, hop, hb⟩⟩

/-- The request `claimWinnings()` adds is a good request. -/
theorem claimWinnings_sent (rt : Runtime) (w : World) (p : Page)
    (tx : TxRequest) (htx : tx ∈ sentRequests (claimWinnings rt w p).1.calls) :
    tx ∈ sentRequests p.calls ∨ GoodRequest rt tx := by
  cases hb : buildPayload rt 3 with
  | error err =>
    rw [claimWinnings_of_error rt w p err hb] at htx
    exact Or.inl htx
  | ok payload =>
    obtain ⟨-, -, -, h, -⟩ :=
      submission_calls rt w p _ "Claim failed:" (claimWinnings rt w)
        (claimWinnings_eq rt w p payload hb)
    rw [h, List.mem_append, List.mem_singleton] at htx
    rcases htx with htx | htx
    · exact Or.inl htx
    · right
      subst htx
      exact ⟨_, rfl, rfl, ⟨0, rfl⟩, Or.inr ⟨hb, rfl⟩⟩

/-- A click while `connected` is false changes nothing. -/
theorem click_not_connected (rt : Runtime) (w : World) (p : Page) (h : p.connected = false) :
    step rt p (Event.clickYes, w) = p ∧ step rt p (Event.clickNo, w) = p ∧
    step rt p (Event.clickClaim, w) = p := by
  simp [step, handle, onYesClick, onNoClick, onClaimClick, h]

/-- One event adds only good requests. -/
theorem step_sent (rt : Runtime) (p : Page) (ew : Event × World) (tx : TxRequest)
    (htx : tx ∈ sentRequests (step rt p ew).calls) :
    tx ∈ sentRequests p.calls ∨ GoodRequest rt tx := by
  obtain ⟨ev, w⟩ := ew
  cases ev with
  | statusChange wallet =>
    rw [step_statusChange, (onStatusChange_effect rt w wallet p).2.2.2] at htx
    exact Or.inl htx
  | clickYes =>
    cases hc : p.connected with
    | false =>
      rw [(click_not_connected rt w p hc).1] at htx
      exact Or.inl htx
    | true =>
      have : step rt p (Event.clickYes, w) = (placeBet rt w 0 p).1 := by
        simp [step, handle, onYesClick, hc]
      rw [this] at htx
      exact placeBet_sent rt w 0 p (Or.inl rfl) tx htx
  | clickNo =>
    cases hc : p.connected with
    | false =>
      rw [(click_not_connected rt w p hc).2.1] at htx
      exact Or.inl htx
    | true =>
      have : step rt p (Event.clickNo, w) = (placeBet rt w 1 p).1 := by
        simp [step, handle, onNoClick, hc]
      rw [this] at htx
      exact placeBet_sent rt w 1 p (Or.inr rfl) tx htx
  | clickClaim =>
    cases hc : p.connected with
    | false =>
      rw [(click_not_connected rt w p hc).2.2] at htx
      exact Or.inl htx
    | true =>
      have : step rt p (Event.clickClaim, w) = (claimWinnings rt w p).1 := by
        simp [step, handle, onClaimClick, hc]
      rw [this] at htx
      exact claimWinnings_sent rt w p tx htx
  | themeChanged params scheme =>
    have : (step rt p (Event.themeChanged params scheme, w)).calls = p.calls :=
      applyTheme_calls params scheme p
    rw [this] at htx
    exact Or.inl htx

/-- A sequence of events adds only good requests. -/
theorem run_sent (rt : Runtime) (evs : List (Event × World)) (p : Page)
    (hp : ∀ tx ∈ sentRequests p.calls, GoodRequest rt tx) :
    ∀ tx ∈ sentRequests (run rt evs p).calls, GoodRequest rt tx := by
  induction evs generalizing p with
  | nil => exact hp
  | cons ew evs ih =>
    rw [run_cons]
    apply ih
    intro tx htx
    rcases step_sent rt p ew tx htx with h | h
    · exact hp tx h
    · exact h

/-- Claim C9. Over every sequence of clicks, wallet notifications and theme
changes from the loaded page, every transaction request handed to the
wallet widget has one message to the contract whose amount is the decimal
string of a non-negative integer and whose payload is built from op 0 or 1,
or from op 3 with amount `0`; and a click on `yes-btn`, `no-btn` or
`claim-btn` while `connected` is false leaves the page as it is, so that no
request is handed over. -/
theorem requests_are_bets_or_claims (rt : Runtime)
    (telegram : Option (Option ThemeParams × String)) (html : Dom)
    (evs : List (Event × World)) :
    (∀ tx ∈ sentRequests (run rt evs (pageLoad telegram html)).calls, GoodRequest rt tx) ∧
    (∀ (w : World) (p : Page), p.connected = false →
      step rt p (Event.clickYes, w) = p ∧ step rt p (Event.clickNo, w) = p ∧
      step rt p (Event.clickClaim, w) = p) := by
  refine ⟨run_sent rt evs _ ?_, click_not_connected rt⟩
  rw [(pageLoad_state telegram html).2.2.2.2]
  intro tx htx
  simp [sentRequests] at htx

set_option maxRecDepth 8000 in
/-- The theorem of C9 at a session that connects, bets yes and claims, and
at a click on the loaded, not yet connected page. -/
theorem requests_are_bets_or_claims_witness :
    GoodRequest sampleRuntime
      { validUntil := validUntil sampleWorld
        messages := [{ address := CONTRACT_ADDRESS, amount := "0", payload := "boc3" }] } ∧
    step sampleRuntime (pageLoad none sampleDom) (Event.clickYes, sampleWorld) =
      pageLoad none sampleDom :=
  ⟨(requests_are_bets_or_claims sampleRuntime none sampleDom
      [(Event.statusChange (some { addr := "x" }), sampleWorld), (Event.clickYes, sampleWorld),
        (Event.clickClaim, sampleWorld)]).1 _ (by decide),
    ((requests_are_bets_or_claims sampleRuntime none sampleDom []).2 sampleWorld
      (pageLoad none sampleDom) rfl).1⟩

/-- The style after `applyTheme` on a palette: the six properties, the last
one set first in the list. -/
theorem applyTheme_some (params : ThemeParams) (scheme : String) (p : Page) :
    (applyTheme (some params) scheme p).1.dom.style =
      ("--section-bg",
        "#" ++ orElse params.secondary_bg_color (if scheme = "dark" then "161c26" else "ffffff")) ::
      ("--hint-color",
        "#" ++ orElse params.hint_color (if scheme = "dark" then "888888" else "6d6d6d")) ::
      ("--button-text-color", "#" ++ orElse params.button_text_color "ffffff") ::
      ("--button-color",
        "#" ++ orElse params.button_color (if scheme = "dark" then "2a86ff" else "0088cc")) ::
      ("--text-color",
        "#" ++ orElse params.text_color (if scheme = "dark" then "ffffff" else "202020")) ::
      ("--bg-color",
        "#" ++ orElse params.bg_color (if scheme = "dark" then "0d1117" else "f5f5f5")) ::
      p.dom.style := by
  simp [applyTheme, JS.seq, setProperty, JS.setDom]

theorem setsRole_of_lookup (d : Dom) (name : String) (value : Option String)
    (fallback : String) (h : getPropertyValue d name = some ("#" ++ orElse value fallback)) :
    SetsRole d name value fallback := by
  constructor
  · intro v hv hne
    rw [h, hv]
    simp [orElse, hne]
  · intro hv
    rw [h]
    rcases hv with hv | hv <;> simp [orElse, hv]

/-- Claim C10 as stated fails. A host palette whose `bg_color` is the empty
string is present, yet `--bg-color` is set from the dark fallback and not
to `#` followed by that value. -/
theorem applyTheme_present_counterexample :
    getPropertyValue
        (applyTheme (some { emptyTheme with bg_color := some "" }) "dark"
          (pageLoad none sampleDom)).1.dom "--bg-color" = some "#0d1117" ∧
    getPropertyValue
        (applyTheme (some { emptyTheme with bg_color := some "" }) "dark"
          (pageLoad none sampleDom)).1.dom "--bg-color" ≠ some ("#" ++ "") := by
  decide

/-- Claim C10, amended. `applyTheme(params, scheme)` changes nothing when
`params` is null; otherwise each of the six properties `--bg-color`,
`--text-color`, `--button-color`, `--button-text-color`, `--hint-color`,
`--section-bg` is set to `#` followed by the host's value (`bg_color`,
`text_color`, `button_color`, `button_text_color`, `hint_color`,
`secondary_bg_color`) when that value is a non-empty string, and by the
fallback of the scheme when it is missing or empty: `0d1117`, `ffffff`,
`2a86ff`, `ffffff`, `888888`, `161c26` for `dark` and `f5f5f5`, `202020`,
`0088cc`, `ffffff`, `6d6d6d`, `ffffff` for any other scheme. -/
theorem applyTheme_roles (params : ThemeParams) (scheme : String) (p : Page) :
    applyTheme none scheme p = (p, .ok ()) ∧
    (let d := (applyTheme (some params) scheme p).1.dom
     SetsRole d "--bg-color" params.bg_color (if scheme = "dark" then "0d1117" else "f5f5f5") ∧
     SetsRole d "--text-color" params.text_color
       (if scheme = "dark" then "ffffff" else "202020") ∧
     SetsRole d "--button-color" params.button_color
       (if scheme = "dark" then "2a86ff" else "0088cc") ∧
     SetsRole d "--button-text-color" params.button_text_color "ffffff" ∧
     SetsRole d "--hint-color" params.hint_color
       (if scheme = "dark" then "888888" else "6d6d6d") ∧
     SetsRole d "--section-bg" params.secondary_bg_color
       (if scheme = "dark" then "161c26" else "ffffff")) ∧
    (applyTheme (some emptyTheme) "dark" p).1.dom.style =
      [("--section-bg", "#161c26"), ("--hint-color", "#888888"),
        ("--button-text-color", "#ffffff"), ("--button-color", "#2a86ff"),
        ("--text-color", "#ffffff"), ("--bg-color", "#0d1117")] ++ p.dom.style ∧
    (applyTheme (some emptyTheme) "light" p).1.dom.style =
      [("--section-bg", "#ffffff"), ("--hint-color", "#6d6d6d"),
        ("--button-text-color", "#ffffff"), ("--button-color", "#0088cc"),
        ("--text-color", "#202020"), ("--bg-color", "#f5f5f5")] ++ p.dom.style := by
  refine ⟨rfl, ?_, ?_, ?_⟩
  · have hs := applyTheme_some params scheme p
    simp only []
    refine ⟨?_, ?_, ?_, ?_, ?_, ?_⟩ <;>
      exact setsRole_of_lookup _ _ _ _ (by simp [getPropertyValue, hs])
  · rw [applyTheme_some]
    simp [emptyTheme, orElse]
  · rw [applyTheme_some]
    simp [emptyTheme, orElse]

set_option maxRecDepth 8000 in
/-- Claim C1 as stated fails. The literal `0.29999999999999999` is the Number
`5404319552844595 * 2^-54`; the floor of `10^9` times the literal, and of
`10^9` times the Number, is `299999999`, yet `toNanoString` returns
`300000000`: the product is rounded up to the next integer before
`Math.floor`.  The literal `9007199.255859375` is a Number exactly, and
`10^9` times it is the integer `9007199255859375`, above `2^53`, yet
`toNanoString` returns `9007199255859376`. -/
theorem toNanoString_floor_counterexample :
    (JSNum.ofDecimal 29999999999999999 17 = .fin false 5404319552844595 (-54) ∧
      ⌊(29999999999999999 : ℚ) / 10 ^ 17 * 10 ^ 9⌋ = 299999999 ∧
      ⌊(5404319552844595 : ℚ) * 2 ^ (-54 : Int) * 10 ^ 9⌋ = 299999999 ∧
      toNanoString (JSNum.ofDecimal 29999999999999999 17) = .ok "300000000") ∧
    (JSNum.ofDecimal 9007199255859375 9 = .fin false 4835703279058944 (-29) ∧
      (4835703279058944 : ℚ) * 2 ^ (-29 : Int) = 9007199255859375 / 10 ^ 9 ∧
      ⌊(9007199255859375 : ℚ) / 10 ^ 9 * 10 ^ 9⌋ = 9007199255859375 ∧
      toNanoString (JSNum.ofDecimal 9007199255859375 9) = .ok "9007199255859376") := by
  refine ⟨⟨by decide, ?_, ?_, by decide⟩, ⟨by decide, by norm_num, ?_, by decide⟩⟩
  · rw [Int.floor_eq_iff]
    norm_num
  · rw [Int.floor_eq_iff]
    norm_num
  · rw [Int.floor_eq_iff]
    norm_num

set_option maxRecDepth 8000 in
/-- Claim C1, amended. For every non-negative finite Number `a = m * 2^e`
(the double itself, not a decimal literal that denotes it) and every
`J ≤ 53` with `a * 10^9 < 2^J`, `toNanoString(a)` returns the decimal string
of `floor(a * 10^9)`: fractional base units are discarded.  The one
exception is that the double product `a * 1e9` is itself the next integer
`floor(a * 10^9) + 1`, which then lies within `2^J / 2^54` above
`a * 10^9`, and that integer is returned; whenever the double product is an
integer, it is what is returned.  In particular `toNanoString(0.2)` is
`200000000`, `toNanoString(0.0000000019)` is `1` and `toNanoString(0)` is
`0`. -/
theorem toNanoString_floor_unless_rounded_up (m : Nat) (e : Int) (J : Nat) (hJ : J ≤ 53)
    (h : (m : ℚ) * 2 ^ e * 10 ^ 9 < 2 ^ J) :
    (∃ k : Int, toNanoString (.fin false m e) = .ok (toString k) ∧
      (∀ j, JSNum.toBigInt (JSNum.mul (.fin false m e) (JSNum.int (10 ^ 9))) = .ok j → k = j) ∧
      (k = ⌊(m : ℚ) * 2 ^ e * 10 ^ 9⌋ ∨
        (k = ⌊(m : ℚ) * 2 ^ e * 10 ^ 9⌋ + 1 ∧
          JSNum.toBigInt (JSNum.mul (.fin false m e) (JSNum.int (10 ^ 9))) = .ok k ∧
          (k : ℚ) - (m : ℚ) * 2 ^ e * 10 ^ 9 ≤ 2 ^ J / 2 ^ 54))) ∧
    toNanoString (JSNum.ofDecimal 2 1) = .ok "200000000" ∧
    toNanoString (JSNum.ofDecimal 19 10) = .ok "1" ∧
    toNanoString (JSNum.int 0) = .ok "0" := by
  refine ⟨?_, toNanoString_default, by decide, by decide⟩
  obtain ⟨n, d, hd, hx, hmul⟩ := mul_1e9 m e
  rw [← hx] at h ⊢
  obtain ⟨k, hk, huniq, hcase⟩ := floor_roundF64_rat n d J hd hJ h
  rw [hmul]
  refine ⟨k, ?_, huniq, hcase⟩
  unfold toNanoString
  rw [hmul, hk]

/-- The theorem of C1 at the amount `0.3`, the Number
`5404319552844595 * 2^-54`, whose product with `10^9` is below `2^29`. -/
theorem toNanoString_floor_unless_rounded_up_witness :
    ∃ k : Int, toNanoString (.fin false 5404319552844595 (-54)) = .ok (toString k) ∧
      (∀ j, JSNum.toBigInt (JSNum.mul (.fin false 5404319552844595 (-54))
        (JSNum.int (10 ^ 9))) = .ok j → k = j) ∧
      (k = ⌊((5404319552844595 : Nat) : ℚ) * 2 ^ (-54 : Int) * 10 ^ 9⌋ ∨
        (k = ⌊((5404319552844595 : Nat) : ℚ) * 2 ^ (-54 : Int) * 10 ^ 9⌋ + 1 ∧
          JSNum.toBigInt (JSNum.mul (.fin false 5404319552844595 (-54))
            (JSNum.int (10 ^ 9))) = .ok k ∧
          (k : ℚ) - ((5404319552844595 : Nat) : ℚ) * 2 ^ (-54 : Int) * 10 ^ 9
            ≤ 2 ^ 29 / 2 ^ 54)) :=
  (toNanoString_floor_unless_rounded_up 5404319552844595 (-54) 29 (by norm_num)
    (by norm_num)).1

/-- The document after `updatePools` when both responses are ok and carry
two output strings each. -/
theorem updatePools_of_ok (rt : Runtime) (w : World) (p : Page) (a b c d : String)
    (h1 : w.fetch totalsUrl = .ok { ok := true, json := .ok (outputBody [a, b]) })
    (h2 : w.fetch stateUrl = .ok { ok := true, json := .ok (outputBody [c, d]) }) :
    (updatePools rt w p).1.dom =
      { p.dom with
        yesPool := toFixed2 rt (JSNum.div (parseIntString a) (JSNum.int (10 ^ 9))) ++ " TON"
        noPool := toFixed2 rt (JSNum.div (parseIntString b) (JSNum.int (10 ^ 9))) ++ " TON"
        claimSectionHidden := !JSNum.strictEq (parseIntString c) (JSNum.int 1) } := by
  simp only [updatePools, JS.tryCatch, JS.bind_eq, JS.seq, fetch, JS.call, JS.lift, h1, h2]
  simp only [outputBody, getOutput, getIndex, parseInt, Except.bind, JS.setDom, JS.seq, JS.lift,
    JS.throw, List.map, List.reverse, List.reverseAux, List.find?, List.get?, Bool.not_true,
    Bool.or_self, Bool.false_eq_true, if_false, decide_True]
  cases JSNum.strictEq (parseIntString c) (JSNum.int 1) <;> simp [JS.setDom]

/-- Whatever the totals request does, when the state response is ok and
carries two output strings `updatePools` either leaves the document as it
was or sets the claim section from the first state string. -/
theorem updatePools_claim_cases (rt : Runtime) (w : World) (p : Page) (c d : String)
    (h2 : w.fetch stateUrl = .ok { ok := true, json := .ok (outputBody [c, d]) }) :
    (updatePools rt w p).1.dom = p.dom ∨
    (updatePools rt w p).1.dom.claimSectionHidden =
      !JSNum.strictEq (parseIntString c) (JSNum.int 1) := by
  simp only [updatePools, JS.tryCatch, JS.bind_eq, JS.seq, fetch, JS.call, JS.lift, h2]
  cases h1 : w.fetch totalsUrl with
  | error err => left; rfl
  | ok r1 =>
    obtain ⟨ok1, j1⟩ := r1
    cases ok1 with
    | false => left; simp [JS.throw]
    | true =>
      cases j1 with
      | error err => left; simp [JS.seq, JS.lift]
      | ok v =>
        simp only [Bool.not_true, Bool.or_self, Bool.false_eq_true, if_false, JS.seq, JS.lift]
        generalize ((getOutput v).bind (getIndex 0)).bind (parseInt rt) = ey
        generalize ((getOutput v).bind (getIndex 1)).bind (parseInt rt) = en
        cases ey with
        | error err => left; rfl
        | ok yes =>
          cases en with
          | error err => left; rfl
          | ok no =>
            right
            simp only [outputBody, getOutput, getIndex, parseInt, Except.bind, JS.setDom,
              List.map, List.reverse, List.reverseAux, List.find?, List.get?, decide_True]
            cases JSNum.strictEq (parseIntString c) (JSNum.int 1) <;> simp [JS.setDom]

set_option maxRecDepth 8000 in
/-- Claim C3 as stated fails. With the totals output
`10000000000000001000000000` (that is `10^25 + 10^9`, so that `y / 10^9` is
exactly `10000000000000001`) and a successful state response, the yes-pool
text is `10000000000000000.00 TON`: `parseInt` rounds the total to the
nearest Number before it is scaled.  And with the state output `0`, `0` the
claim section is not hidden for every totals response: when the totals
response is not ok, a claim section that was visible stays visible. -/
theorem updatePools_display_counterexample :
    ((10000000000000001000000000 : ℚ) / 10 ^ 9 = 10000000000000001 ∧
      twoDecimals 1000000000000000100 = "10000000000000001.00" ∧
      (updatePools sampleRuntime
        { sampleWorld with
          fetch := sampleIndexer true true ["10000000000000001000000000", "100000000000"]
            ["1", "1"] }
        (pageLoad none sampleDom)).1.dom.yesPool = "10000000000000000.00 TON") ∧
    (updatePools sampleRuntime
      { sampleWorld with
        fetch := sampleIndexer false true ["200000000000", "100000000000"] ["0", "0"] }
      (pageLoad none { sampleDom with claimSectionHidden := false })).1.dom.claimSectionHidden
        = false := by
  refine ⟨⟨by norm_num, by decide, by decide⟩, by decide⟩

/-- Claim C3, amended. For every successful pair of indexer responses whose
outputs are the strings of the integers `[y, n]` and of `[s, o]`, with `s`
any integer and `o` any string: when `y, n < 2^53`, after `updatePools` the
yes-pool text is `y / 10^9` rounded to a nearest hundredth (a tie going
either way) and written with exactly two decimals, followed by ` TON`, and
the no-pool text is `n / 10^9` written the same way; and for all `y` and
`n`, of any size (for any two totals strings at all), the claim section is
visible if and only if `s = 1`, whatever `o`, `y` and `n` are.  With totals
`200000000000`, `100000000000` and state `1`, `1` the texts are
`200.00 TON` and `100.00 TON` and the claim section is visible.  With state
`0`, `0` the claim section is hidden after every ok totals response that
carries two output strings; and whatever the totals request does (a
rejected fetch, a response that is not ok, any body), `updatePools` either
leaves the document as it was or leaves the claim section hidden, so that a
claim section that was hidden stays hidden for every totals response. -/
theorem updatePools_display (rt : Runtime) (s : Int) (o : String) :
    (∀ (w : World) (p : Page) (y n : Nat), y < 2 ^ 53 → n < 2 ^ 53 →
      w.fetch totalsUrl =
        .ok { ok := true, json := .ok (outputBody [toString y, toString n]) } →
      w.fetch stateUrl = .ok { ok := true, json := .ok (outputBody [toString s, o]) } →
      ∃ cy cn : Nat, NearestHundredth cy y ∧ NearestHundredth cn n ∧
        (updatePools rt w p).1.dom.yesPool = twoDecimals cy ++ " TON" ∧
        (updatePools rt w p).1.dom.noPool = twoDecimals cn ++ " TON") ∧
    (∀ (a b : String) (w : World) (p : Page),
      w.fetch totalsUrl = .ok { ok := true, json := .ok (outputBody [a, b]) } →
      w.fetch stateUrl = .ok { ok := true, json := .ok (outputBody [toString s, o]) } →
      ((updatePools rt w p).1.dom.claimSectionHidden = false ↔ s = 1)) ∧
    (∀ (a b : String) (w : World) (p : Page),
      w.fetch totalsUrl = .ok { ok := true, json := .ok (outputBody [a, b]) } →
      w.fetch stateUrl = .ok { ok := true, json := .ok (outputBody ["0", "0"]) } →
      (updatePools rt w p).1.dom.claimSectionHidden = true) ∧
    (∀ (w : World) (p : Page),
      w.fetch stateUrl = .ok { ok := true, json := .ok (outputBody ["0", "0"]) } →
      (updatePools rt w p).1.dom = p.dom ∨
        (updatePools rt w p).1.dom.claimSectionHidden = true) ∧
    (∀ (w : World) (p : Page),
      w.fetch stateUrl = .ok { ok := true, json := .ok (outputBody ["0", "0"]) } →
      p.dom.claimSectionHidden = true →
      (updatePools rt w p).1.dom.claimSectionHidden = true) ∧
    (∀ (w : World) (p : Page),
      w.fetch totalsUrl =
        .ok { ok := true, json := .ok (outputBody ["200000000000", "100000000000"]) } →
      w.fetch stateUrl = .ok { ok := true, json := .ok (outputBody ["1", "1"]) } →
      (updatePools rt w p).1.dom.yesPool = "200.00 TON" ∧
      (updatePools rt w p).1.dom.noPool = "100.00 TON" ∧
      (updatePools rt w p).1.dom.claimSectionHidden = false) := by
  have hzero : JSNum.strictEq (parseIntString "0") (JSNum.int 1) = false := by decide
  refine ⟨?_, ?_, ?_, ?_, ?_, ?_⟩
  · intro w p y n hy hn h1 h2
    obtain ⟨cy, hcy, hty⟩ := toFixed2_div_1e9 rt y hy
    obtain ⟨cn, hcn, htn⟩ := toFixed2_div_1e9 rt n hn
    refine ⟨cy, cn, hcy, hcn, ?_, ?_⟩
    · rw [updatePools_of_ok rt w p _ _ _ _ h1 h2, parseIntString_toString_nat y, hty]
    · rw [updatePools_of_ok rt w p _ _ _ _ h1 h2, parseIntString_toString_nat n, htn]
  · intro a b w p h1 h2
    rw [updatePools_of_ok rt w p _ _ _ _ h1 h2, strictEq_parse_one]
    simp
  · intro a b w p h1 h2
    rw [updatePools_of_ok rt w p _ _ _ _ h1 h2]
    simp [hzero]
  · intro w p h2
    rcases updatePools_claim_cases rt w p "0" "0" h2 with hc | hc
    · exact Or.inl hc
    · right
      rw [hc, hzero]
      rfl
  · intro w p h2 hp
    rcases updatePools_claim_cases rt w p "0" "0" h2 with hc | hc
    · rw [hc]
      exact hp
    · rw [hc, hzero]
      rfl
  · intro w p h1 h2
    rw [updatePools_of_ok rt w p _ _ _ _ h1 h2]
    have e1 : JSNum.strictEq (parseIntString "1") (JSNum.int 1) = true := by decide
    have d2 : JSNum.div (parseIntString "200000000000") (JSNum.int (10 ^ 9))
        = .fin false 7036874417766400 (-45) := by decide
    have d3 : JSNum.div (parseIntString "100000000000") (JSNum.int (10 ^ 9))
        = .fin false 7036874417766400 (-46) := by decide
    have e2 : toFixed2 rt (.fin false 7036874417766400 (-45)) = "200.00" := by
      have : atLeast1e21 7036874417766400 (-45) = false := by decide
      simp only [toFixed2, this, Bool.false_eq_true, if_false]
      decide
    have e3 : toFixed2 rt (.fin false 7036874417766400 (-46)) = "100.00" := by
      have : atLeast1e21 7036874417766400 (-46) = false := by decide
      simp only [toFixed2, this, Bool.false_eq_true, if_false]
      decide
    simp only [e1, d2, d3, e2, e3]
    decide

set_option maxRecDepth 8000 in
/-- The theorem of C3 at the responses of the sample world: totals
`200000000000`, `100000000000` and state `1`, `1`; and, for the part on
the state `0`, `0`, at a totals response that is not ok on the loaded page
whose claim section is hidden. -/
theorem updatePools_display_witness :
    (∃ cy cn : Nat, NearestHundredth cy 200000000000 ∧ NearestHundredth cn 100000000000 ∧
      (updatePools sampleRuntime sampleWorld (pageLoad none sampleDom)).1.dom.yesPool
        = twoDecimals cy ++ " TON" ∧
      (updatePools sampleRuntime sampleWorld (pageLoad none sampleDom)).1.dom.noPool
        = twoDecimals cn ++ " TON") ∧
    ((updatePools sampleRuntime sampleWorld (pageLoad none sampleDom)).1.dom.claimSectionHidden
      = false ↔ (1 : Int) = 1) ∧
    (updatePools sampleRuntime
      { sampleWorld with
        fetch := sampleIndexer false true ["200000000000", "100000000000"] ["0", "0"] }
      (pageLoad none sampleDom)).1.dom.claimSectionHidden = true :=
  ⟨(updatePools_display sampleRuntime 1 "1").1 sampleWorld (pageLoad none sampleDom)
      200000000000 100000000000 (by norm_num) (by norm_num) rfl rfl,
    (updatePools_display sampleRuntime 1 "1").2.1 _ _ sampleWorld (pageLoad none sampleDom)
      rfl rfl,
    (updatePools_display sampleRuntime 0 "0").2.2.2.2.1
      { sampleWorld with
        fetch := sampleIndexer false true ["200000000000", "100000000000"] ["0", "0"] }
      (pageLoad none sampleDom) rfl rfl⟩

/-- Claim C2. For every op whose payload the codec builds and every
submission time (a time value, below `2^53` milliseconds), `placeBet(op)`
hands the wallet widget exactly one request, whose `validUntil` is the
integer `floor(now / 1000) + 600` and whose only message has the address
`CONTRACT_ADDRESS`, the amount `toNanoString(DEFAULT_BET_AMOUNT)`, which is
`200000000`, and the payload `buildPayload(op)`; `claimWinnings()` hands
over the same request except that the amount is `0` and the payload is
`buildPayload(3)`. -/
theorem submission_request (rt : Runtime) (w : World) (op : Nat) (p : Page)
    (payload payload3 : String) (hnow : w.now < 2 ^ 53)
    (hb : buildPayload rt op = .ok payload) (hc : buildPayload rt 3 = .ok payload3) :
    JSNum.toBigInt (validUntil w) = .ok ((w.now / 1000 + 600 : Nat) : Int) ∧
    toNanoString DEFAULT_BET_AMOUNT = .ok "200000000" ∧
    sentRequests (placeBet rt w op p).1.calls = sentRequests p.calls ++
      [{ validUntil := validUntil w
         messages := [{ address := CONTRACT_ADDRESS, amount := "200000000",
                        payload := payload }] }] ∧
    sentRequests (claimWinnings rt w p).1.calls = sentRequests p.calls ++
      [{ validUntil := validUntil w
         messages := [{ address := CONTRACT_ADDRESS, amount := "0", payload := payload3 }] }] :=
  ⟨validUntil_value w hnow, toNanoString_default,
    (submission_calls rt w p _ "Bet failed:" (placeBet rt w op)
      (placeBet_eq rt w op p payload hb)).2.2.2.1,
    (submission_calls rt w p _ "Claim failed:" (claimWinnings rt w)
      (claimWinnings_eq rt w p payload3 hc)).2.2.2.1⟩

set_option maxRecDepth 8000 in
/-- The theorem of C2 at a bet on yes and a claim at the time
`1700000000123`, on the loaded page. -/
theorem submission_request_witness :
    JSNum.toBigInt (validUntil sampleWorld) = .ok 1700000600 ∧
    toNanoString DEFAULT_BET_AMOUNT = .ok "200000000" ∧
    sentRequests (placeBet sampleRuntime sampleWorld 0 (pageLoad none sampleDom)).1.calls =
      sentRequests (pageLoad none sampleDom).calls ++
      [{ validUntil := validUntil sampleWorld
         messages := [{ address := CONTRACT_ADDRESS, amount := "200000000",
                        payload := "boc0" }] }] ∧
    sentRequests (claimWinnings sampleRuntime sampleWorld (pageLoad none sampleDom)).1.calls =
      sentRequests (pageLoad none sampleDom).calls ++
      [{ validUntil := validUntil sampleWorld
         messages := [{ address := CONTRACT_ADDRESS, amount := "0", payload := "boc3" }] }] :=
  submission_request sampleRuntime sampleWorld 0 (pageLoad none sampleDom) "boc0" "boc3"
    (by decide) rfl rfl

end TonMiniapp
